import Mathlib

/-!
# Shallow embedding of the EO-DataHub billing scanner

This file embeds the Python modules under `src/billing_scanner/`
(`scanner.py`, `state.py`, `subnettree.py`, `s3_utils.py`) into Lean and
proves properties of the embedding.

Translation conventions:
* Python exceptions become `Except PyErr`; a `try/except` that swallows the
  error becomes a `match` collapsing the error branch.
* Python strings become `String`; the string operations used by the code
  (`split`, `strip`, `startswith`, `endswith`, `replace`, `splitlines`) are
  re-implemented below over `List Char` with fuel-based structural recursion
  so the kernel can evaluate them.
* Machine integers do not occur; Python's unbounded `int` is `Int`/`Nat`.
  32-bit arithmetic inside SHA-1 is `Nat` with explicit `% 2^32`.
* External collaborators (S3 listing/download, the Pulsar producer, the
  HTTP fetch of the ip-ranges document, the persisted state file) enter as
  explicit parameters holding their results, with their documented
  semantics modelled where the code relies on them (S3 `StartAfter`,
  `PySubnetTree` CIDR matching, `uuid.uuid5`, `datetime.fromisoformat`).
-/

set_option maxRecDepth 100000

namespace Billing

/-- Python exception classes raised by the embedded code. -/
inductive PyErr where
  | valueError
  | indexError
  | attributeError
  | typeError
  | jsonError
deriving DecidableEq, Repr

deriving instance DecidableEq for Except

/-! ## Python string primitives -/

/-- Whitespace stripped by Python `str.strip()` (ASCII portion, which is all
the log format can contain in the stripped positions). -/
def isPySpace (c : Char) : Bool :=
  c = ' ' || c = '\t' || c = '\n' || c = '\r' || c = '\x0b' || c = '\x0c'

/-- Python `str.strip()`. -/
def pyStrip (s : String) : String :=
  String.mk (((s.data.dropWhile isPySpace).reverse.dropWhile isPySpace).reverse)

/-- Worker for `strSplit`; `fuel` bounds the recursion by the input length. -/
def splitSepAux (sep : List Char) : Nat → List Char → List Char → List (List Char)
  | 0, _, cur => [cur.reverse]
  | _ + 1, [], cur => [cur.reverse]
  | fuel + 1, c :: rest, cur =>
    if sep.isPrefixOf (c :: rest) then
      cur.reverse :: splitSepAux sep fuel ((c :: rest).drop sep.length) []
    else
      splitSepAux sep fuel rest (c :: cur)

/-- Python `s.split(sep)` for a non-empty separator: `"".split(t) = [""]`,
empty pieces are kept. -/
def strSplit (s sep : String) : List String :=
  (splitSepAux sep.data (s.data.length + 1) s.data []).map String.mk

/-- Worker for `strReplace`. -/
def replaceSepAux (sep new : List Char) : Nat → List Char → List Char
  | 0, cs => cs
  | _ + 1, [] => []
  | fuel + 1, c :: rest =>
    if sep.isPrefixOf (c :: rest) then
      new ++ replaceSepAux sep new fuel ((c :: rest).drop sep.length)
    else
      c :: replaceSepAux sep new fuel rest

/-- Python `s.replace(old, new)` for a non-empty `old`. -/
def strReplace (s old new : String) : String :=
  String.mk (replaceSepAux old.data new.data (s.data.length + 1) s.data)

/-- Python `s.startswith(p)`. -/
def strStartsWith (s p : String) : Bool := p.data.isPrefixOf s.data

/-- Python `s.endswith(p)`. -/
def strEndsWith (s p : String) : Bool := p.data.isSuffixOf s.data

/-- Python string `<`: lexicographic on code points (this is also the byte
order S3 uses for `StartAfter`, as all keys involved are ASCII). -/
def charListLt : List Char → List Char → Bool
  | [], [] => false
  | [], _ :: _ => true
  | _ :: _, [] => false
  | a :: as, b :: bs => if a < b then true else if b < a then false else charListLt as bs

/-- Python `a < b` on strings. -/
def strLt (a b : String) : Bool := charListLt a.data b.data

/-- Worker for `pySplitlines`. -/
def splitlinesAux : Nat → List Char → List Char → List (List Char)
  | 0, _, cur => if cur.isEmpty then [] else [cur.reverse]
  | _ + 1, [], cur => if cur.isEmpty then [] else [cur.reverse]
  | fuel + 1, '\r' :: '\n' :: rest, cur => cur.reverse :: splitlinesAux fuel rest []
  | fuel + 1, '\r' :: rest, cur => cur.reverse :: splitlinesAux fuel rest []
  | fuel + 1, '\n' :: rest, cur => cur.reverse :: splitlinesAux fuel rest []
  | fuel + 1, c :: rest, cur => splitlinesAux fuel rest (c :: cur)

/-- Python `str.splitlines()` restricted to the `\n`, `\r`, `\r\n`
terminators that occur in CloudFront logs: a trailing terminator does not
produce a final empty line. -/
def pySplitlines (s : String) : List String :=
  (splitlinesAux (s.data.length + 1) s.data []).map String.mk

/-! ## Python `int()` -/

/-- ASCII decimal digit test. -/
def isDigitC (c : Char) : Bool := '0' ≤ c && c ≤ '9'

/-- Digit value. -/
def digitVal (c : Char) : Nat := c.toNat - '0'.toNat

/-- Digits possibly separated by single underscores, as accepted by Python
`int()` after the first digit. -/
def digitsURest : Nat → List Char → Nat → Option Nat
  | _, [], acc => some acc
  | 0, _ :: _, _ => none
  | fuel + 1, '_' :: c :: rest, acc =>
    if isDigitC c then digitsURest fuel rest (acc * 10 + digitVal c) else none
  | fuel + 1, c :: rest, acc =>
    if isDigitC c then digitsURest fuel rest (acc * 10 + digitVal c) else none

/-- Python `int(s)`: optional surrounding whitespace, optional sign, a
nonempty digit string with optional single underscores between digits. -/
def pyIntParse (s : String) : Option Int :=
  let cs := (pyStrip s).data
  match cs with
  | '+' :: c :: rest =>
    if isDigitC c then (digitsURest rest.length rest (digitVal c)).map Int.ofNat else none
  | '-' :: c :: rest =>
    if isDigitC c then (digitsURest rest.length rest (digitVal c)).map (fun n => -(Int.ofNat n))
    else none
  | c :: rest =>
    if isDigitC c then (digitsURest rest.length rest (digitVal c)).map Int.ofNat else none
  | [] => none

/-- `int(s)`, raising `ValueError` on bad literals. -/
def pyInt (s : String) : Except PyErr Int :=
  match pyIntParse s with
  | some n => .ok n
  | none => .error .valueError

/-- Python `xs[i]` on a list, raising `IndexError` when out of range. -/
def pyIndex (xs : List String) (i : Nat) : Except PyErr String :=
  match xs.get? i with
  | some v => .ok v
  | none => .error .indexError

/-! ## Python/JSON values (state file handling) -/

/-- A Python value as produced by `json.load` and manipulated by the state
code. -/
inductive Pval where
  | str (s : String)
  | num (n : Int)
  | list (xs : List Pval)
  | dict (kvs : List (String × Pval))
  | bool (b : Bool)
  | none

/-- Python `==` between a value and a string: a string equals another string
with the same characters; values of other types never equal a string. This is
the only equality the state code performs between a file key and set
elements. -/
def Pval.isStrEq (k : String) : Pval → Bool
  | .str s => s == k
  | _ => false

/-- Python `==` between two hashable (scalar) values; applied only after
hashability has been checked, so containers never reach it. -/
def pvalScalarBeq : Pval → Pval → Bool
  | .str a, .str b => a == b
  | .num a, .num b => a == b
  | .bool a, .bool b => a == b
  | .none, .none => true
  | _, _ => false

/-- Python truthiness of a value. -/
def pyTruthy : Pval → Bool
  | .str s => !(s == "")
  | .num n => !(n == 0)
  | .list xs => !xs.isEmpty
  | .dict kvs => !kvs.isEmpty
  | .bool b => b
  | .none => false

/-- `data.get(k, dflt)`: only dictionaries have `.get`; anything else raises
`AttributeError`. -/
def pyDictGet (v : Pval) (k : String) (dflt : Pval) : Except PyErr Pval :=
  match v with
  | .dict kvs => .ok (((kvs.find? (fun p => p.1 == k)).map (fun p => p.2)).getD dflt)
  | _ => .error .attributeError

/-- Python `max(a, b)` on the value types that can appear in the processed
list; comparing anything else raises `TypeError`. -/
def pyMax2 (a b : Pval) : Except PyErr Pval :=
  match a, b with
  | .str x, .str y => .ok (.str (if strLt x y then y else x))
  | .num x, .num y => .ok (.num (if x < y then y else x))
  | _, _ => .error .typeError

/-- Python `max(xs)` on a list (`ValueError` when empty). -/
def pyMaxList : List Pval → Except PyErr Pval
  | [] => .error .valueError
  | x :: rest => rest.foldlM pyMax2 x

/-- Python `max` over an iterable value. -/
def pyMaxP : Pval → Except PyErr Pval
  | .list xs => pyMaxList xs
  | .str s => pyMaxList (s.data.map (fun c => Pval.str (String.mk [c])))
  | _ => .error .typeError

/-! ## `datetime` model -/

/-- A `datetime.datetime` as constructed by `fromisoformat` on the scanner's
second-precision timestamps. -/
structure PyDateTime where
  year : Nat
  month : Nat
  day : Nat
  hour : Nat
  minute : Nat
  second : Nat
deriving DecidableEq, Repr

/-- Python `datetime` `<`: lexicographic comparison of the components. -/
abbrev dtLtP (a b : PyDateTime) : Prop :=
  a.year < b.year ∨ (a.year = b.year ∧
    (a.month < b.month ∨ (a.month = b.month ∧
      (a.day < b.day ∨ (a.day = b.day ∧
        (a.hour < b.hour ∨ (a.hour = b.hour ∧
          (a.minute < b.minute ∨ (a.minute = b.minute ∧
            a.second < b.second)))))))))

/-- Boolean form of the `datetime` `<` used by the aggregation loop. -/
def dtLt (a b : PyDateTime) : Bool := decide (dtLtP a b)

/-- `a <= b` on datetimes (the spec-side reading of the interval bound;
equal to `not (b < a)` for this linear order). -/
def dtLe (a b : PyDateTime) : Bool := !(dtLt b a)

/-- Days in month, as validated by `datetime`. -/
def daysInMonth (y m : Nat) : Nat :=
  if m = 2 then (if (y % 4 = 0 ∧ y % 100 ≠ 0) ∨ y % 400 = 0 then 29 else 28)
  else if m = 4 ∨ m = 6 ∨ m = 9 ∨ m = 11 then 30 else 31

/-- `datetime.fromisoformat`, restricted to the exact second-precision shape
`YYYY-MM-DDTHH:MM:SS` that `process_log_file` constructs from the log's date
and time fields (the full Python grammar accepts more forms; every string the
scanner feeds it either has this shape or is rejected as `ValueError` by both
the real parser and this model). Range validation mirrors `datetime`. -/
def fromisoformat (s : String) : Except PyErr PyDateTime :=
  match s.data with
  | [y1, y2, y3, y4, '-', m1, m2, '-', d1, d2, 'T', h1, h2, ':', n1, n2, ':', s1, s2] =>
    if (isDigitC y1 && isDigitC y2 && isDigitC y3 && isDigitC y4 &&
        isDigitC m1 && isDigitC m2 && isDigitC d1 && isDigitC d2 &&
        isDigitC h1 && isDigitC h2 && isDigitC n1 && isDigitC n2 &&
        isDigitC s1 && isDigitC s2) then
      let y := ((digitVal y1 * 10 + digitVal y2) * 10 + digitVal y3) * 10 + digitVal y4
      let mo := digitVal m1 * 10 + digitVal m2
      let d := digitVal d1 * 10 + digitVal d2
      let h := digitVal h1 * 10 + digitVal h2
      let mi := digitVal n1 * 10 + digitVal n2
      let se := digitVal s1 * 10 + digitVal s2
      if 1 ≤ y ∧ 1 ≤ mo ∧ mo ≤ 12 ∧ 1 ≤ d ∧ d ≤ daysInMonth y mo ∧
          h ≤ 23 ∧ mi ≤ 59 ∧ se ≤ 59 then
        .ok ⟨y, mo, d, h, mi, se⟩
      else .error .valueError
    else .error .valueError
  | _ => .error .valueError

/-- Decimal digits of a natural number (fuel-based). -/
def natDigitsAux : Nat → Nat → List Char → List Char
  | 0, _, acc => acc
  | _ + 1, 0, acc => acc
  | fuel + 1, n, acc =>
    natDigitsAux fuel (n / 10)
      ((match n % 10 with
        | 0 => '0' | 1 => '1' | 2 => '2' | 3 => '3' | 4 => '4'
        | 5 => '5' | 6 => '6' | 7 => '7' | 8 => '8' | _ => '9') :: acc)

/-- Decimal rendering of a natural number. -/
def natStr (n : Nat) : String :=
  if n = 0 then "0" else String.mk (natDigitsAux (n + 1) n [])

/-- Zero-pad to two digits (as `datetime.isoformat` renders components). -/
def pad2 (n : Nat) : String := if n < 10 then "0" ++ natStr n else natStr n

/-- Zero-pad to four digits (`isoformat` year). -/
def pad4 (n : Nat) : String :=
  if n < 10 then "000" ++ natStr n
  else if n < 100 then "00" ++ natStr n
  else if n < 1000 then "0" ++ natStr n
  else natStr n

/-- `datetime.isoformat()` for a second-precision value (microseconds are 0,
so Python omits them). -/
def PyDateTime.isoformat (d : PyDateTime) : String :=
  pad4 d.year ++ "-" ++ pad2 d.month ++ "-" ++ pad2 d.day ++ "T" ++
    pad2 d.hour ++ ":" ++ pad2 d.minute ++ ":" ++ pad2 d.second

/-! ## `uuid.uuid5` (RFC 4122 name-based UUID over SHA-1)

The scanner derives event identifiers with
`uuid.uuid5(uuid.NAMESPACE_DNS, key)`. We embed the full computation:
UTF-8 encode the name, SHA-1 over namespace-bytes ++ name-bytes, truncate to
16 bytes, stamp version 5 and the RFC 4122 variant, render as the dashed
lowercase hex string `str(...)` produces. -/

/-- Truncation to 32 bits. -/
def w32 (n : Nat) : Nat := n % 4294967296

/-- 32-bit left rotation (argument below `2^32`; the two summands occupy
disjoint bit ranges). -/
def rotl32 (b n : Nat) : Nat := w32 (n * 2 ^ b) + n / 2 ^ (32 - b)

/-- SHA-1 round function. -/
def sha1F (t b c d : Nat) : Nat :=
  if t < 20 then (b &&& c) ||| ((4294967295 ^^^ b) &&& d)
  else if t < 40 then b ^^^ c ^^^ d
  else if t < 60 then (b &&& c) ||| (b &&& d) ||| (c &&& d)
  else b ^^^ c ^^^ d

/-- SHA-1 round constants. -/
def sha1K (t : Nat) : Nat :=
  if t < 20 then 0x5A827999
  else if t < 40 then 0x6ED9EBA1
  else if t < 60 then 0x8F1BBCDC
  else 0xCA62C1D6

/-- Extend the 16 block words to 80 schedule words; the list is kept in
reverse (most recent first) while extending. -/
def sha1ExtendRev : Nat → List Nat → List Nat
  | 0, wrev => wrev
  | fuel + 1, wrev =>
    let x := rotl32 1 ((wrev.getD 2 0) ^^^ (wrev.getD 7 0) ^^^ (wrev.getD 13 0) ^^^ (wrev.getD 15 0))
    sha1ExtendRev fuel (x :: wrev)

/-- The 80 SHA-1 rounds over the schedule words. -/
def sha1Rounds : Nat → List Nat → Nat × Nat × Nat × Nat × Nat → Nat × Nat × Nat × Nat × Nat
  | _, [], st => st
  | t, wt :: rest, (a, b, c, d, e) =>
    let tmp := w32 (rotl32 5 a + sha1F t b c d + e + sha1K t + wt)
    sha1Rounds (t + 1) rest (tmp, a, rotl32 30 b, c, d)

/-- Big-endian bytes to 32-bit words. -/
def bytesToW32 : List Nat → List Nat
  | b0 :: b1 :: b2 :: b3 :: rest => (((b0 * 256 + b1) * 256 + b2) * 256 + b3) :: bytesToW32 rest
  | _ => []

/-- Process padded input 64-byte block by 64-byte block (`fuel` = number of
blocks). -/
def sha1Blocks : Nat → List Nat → Nat × Nat × Nat × Nat × Nat → Nat × Nat × Nat × Nat × Nat
  | 0, _, h => h
  | fuel + 1, bytes, (h0, h1, h2, h3, h4) =>
    let w := (sha1ExtendRev 64 (bytesToW32 (bytes.take 64)).reverse).reverse
    let (a, b, c, d, e) := sha1Rounds 0 w (h0, h1, h2, h3, h4)
    sha1Blocks fuel (bytes.drop 64)
      (w32 (h0 + a), w32 (h1 + b), w32 (h2 + c), w32 (h3 + d), w32 (h4 + e))

/-- `count` big-endian bytes of a value. -/
def natBytesBE : Nat → Nat → List Nat
  | 0, _ => []
  | k + 1, v => natBytesBE k (v / 256) ++ [v % 256]

/-- SHA-1 padding: `0x80`, zeros, 8-byte big-endian bit length. -/
def sha1Pad (msg : List Nat) : List Nat :=
  msg ++ [0x80] ++ List.replicate ((55 + 64 - msg.length % 64) % 64) 0 ++
    natBytesBE 8 (msg.length * 8)

/-- SHA-1 digest (20 bytes) of a byte list. -/
def sha1 (msg : List Nat) : List Nat :=
  let padded := sha1Pad msg
  let (h0, h1, h2, h3, h4) :=
    sha1Blocks (padded.length / 64) padded
      (0x67452301, 0xEFCDAB89, 0x98BADCFE, 0x10325476, 0xC3D2E1F0)
  natBytesBE 4 h0 ++ natBytesBE 4 h1 ++ natBytesBE 4 h2 ++ natBytesBE 4 h3 ++ natBytesBE 4 h4

/-- UTF-8 encoding of one character. -/
def charUtf8 (c : Char) : List Nat :=
  let n := c.toNat
  if n < 128 then [n]
  else if n < 2048 then [192 + n / 64, 128 + n % 64]
  else if n < 65536 then [224 + n / 4096, 128 + n / 64 % 64, 128 + n % 64]
  else [240 + n / 262144, 128 + n / 4096 % 64, 128 + n / 64 % 64, 128 + n % 64]

/-- UTF-8 encoding of a string (`name.encode("utf-8")` in `uuid.uuid5`). -/
def utf8Bytes (s : String) : List Nat :=
  s.data.foldr (fun c acc => charUtf8 c ++ acc) []

/-- The 16 bytes of `uuid.NAMESPACE_DNS`
(`6ba7b810-9dad-11d1-80b4-00c04fd430c8`). -/
def namespaceDNSBytes : List Nat :=
  [0x6b, 0xa7, 0xb8, 0x10, 0x9d, 0xad, 0x11, 0xd1,
   0x80, 0xb4, 0x00, 0xc0, 0x4f, 0xd4, 0x30, 0xc8]

/-- Lowercase hex digit. -/
def hexChar : Nat → Char
  | 0 => '0' | 1 => '1' | 2 => '2' | 3 => '3' | 4 => '4' | 5 => '5'
  | 6 => '6' | 7 => '7' | 8 => '8' | 9 => '9' | 10 => 'a' | 11 => 'b'
  | 12 => 'c' | 13 => 'd' | 14 => 'e' | _ => 'f'

/-- Two lowercase hex digits of a byte. -/
def byteHex (b : Nat) : List Char := [hexChar (b / 16), hexChar (b % 16)]

/-- Hex rendering of a byte list. -/
def bytesHex (bs : List Nat) : String :=
  String.mk (bs.foldr (fun b acc => byteHex b ++ acc) [])

/-- `str(uuid.uuid5(uuid.NAMESPACE_DNS, name))`. -/
def uuid5dns (name : String) : String :=
  let h := sha1 (namespaceDNSBytes ++ utf8Bytes name)
  match h with
  | x0 :: x1 :: x2 :: x3 :: x4 :: x5 :: x6 :: x7 :: x8 :: x9 :: x10 :: x11 :: x12 :: x13 :: x14 :: x15 :: _ =>
    bytesHex [x0, x1, x2, x3] ++ "-" ++ bytesHex [x4, x5] ++ "-" ++
      bytesHex [x6 % 16 + 0x50, x7] ++ "-" ++ bytesHex [x8 % 64 + 0x80, x9] ++ "-" ++
      bytesHex [x10, x11, x12, x13, x14, x15]
  | _ => ""

/-! ## IP addresses, CIDR prefixes and the `PySubnetTree` model
(`src/billing_scanner/subnettree.py`)

`PySubnetTree` keeps IPv4 and IPv6 entries in one 128-bit patricia tree,
embedding IPv4 as v4-mapped IPv6 (`::ffff:a.b.c.d`, prefix length + 96).
`tree[cidr] = v` raises `ValueError` for an unparseable prefix;
`ip in tree` raises `ValueError` for an unparseable address and otherwise
answers whether any inserted prefix contains the address. -/

/-- One decimal octet of a dotted quad (1-3 digits, `0`-`255`, no leading
zeros), as `inet_pton` accepts. -/
def parseDecOctet (cs : List Char) : Option Nat :=
  match cs with
  | [a] => if isDigitC a then some (digitVal a) else Option.none
  | [a, b] =>
    if isDigitC a && isDigitC b && a ≠ '0' then some (digitVal a * 10 + digitVal b)
    else Option.none
  | [a, b, c] =>
    if isDigitC a && isDigitC b && isDigitC c && a ≠ '0' then
      let v := (digitVal a * 10 + digitVal b) * 10 + digitVal c
      if v ≤ 255 then some v else Option.none
    else Option.none
  | _ => Option.none

/-- A dotted-quad IPv4 address as a 32-bit value. -/
def parseIPv4 (s : String) : Option Nat :=
  match strSplit s "." with
  | [a, b, c, d] => do
    let o1 ← parseDecOctet a.data
    let o2 ← parseDecOctet b.data
    let o3 ← parseDecOctet c.data
    let o4 ← parseDecOctet d.data
    some (((o1 * 256 + o2) * 256 + o3) * 256 + o4)
  | _ => Option.none

/-- Hex digit value. -/
def hexDigitVal (c : Char) : Option Nat :=
  if isDigitC c then some (digitVal c)
  else if 'a' ≤ c && c ≤ 'f' then some (c.toNat - 'a'.toNat + 10)
  else if 'A' ≤ c && c ≤ 'F' then some (c.toNat - 'A'.toNat + 10)
  else Option.none

/-- An IPv6 group: 1-4 hex digits. -/
def parseH16 (cs : List Char) : Option Nat :=
  match cs with
  | [] => Option.none
  | _ =>
    if cs.length ≤ 4 then
      cs.foldlM (fun acc c => (hexDigitVal c).map (fun v => acc * 16 + v)) 0
    else Option.none

/-- Parse colon-separated IPv6 groups, each a 16-bit value; no embedded
dotted quad. -/
def parseH16Groups (parts : List String) : Option (List Nat) :=
  parts.mapM (fun p => parseH16 p.data)

/-- Like `parseH16Groups` but the final group may be a dotted quad standing
for two 16-bit groups (`::ffff:1.2.3.4` forms). -/
def parseH16GroupsTail : List String → Option (List Nat)
  | [] => some []
  | [p] =>
    if p.data.contains '.' then
      (parseIPv4 p).map (fun v => [v / 65536, v % 65536])
    else (parseH16 p.data).map (fun g => [g])
  | p :: rest => do
    let g ← parseH16 p.data
    let gs ← parseH16GroupsTail rest
    some (g :: gs)

/-- Combine 16-bit groups big-endian into one value. -/
def combineGroups (gs : List Nat) : Nat := gs.foldl (fun a g => a * 65536 + g) 0

/-- An IPv6 address as a 128-bit value: either eight groups, or a single
`::` filling the remaining groups with zeros; the trailing groups may be a
dotted quad. -/
def parseIPv6 (s : String) : Option Nat :=
  match strSplit s "::" with
  | [whole] => do
    let gs ← parseH16GroupsTail (strSplit whole ":")
    if gs.length = 8 then some (combineGroups gs) else Option.none
  | [l, r] => do
    let lg ← if l = "" then some [] else parseH16Groups (strSplit l ":")
    let rg ← if r = "" then some [] else parseH16GroupsTail (strSplit r ":")
    if lg.length + rg.length ≤ 7 then
      some (combineGroups (lg ++ List.replicate (8 - lg.length - rg.length) 0 ++ rg))
    else Option.none
  | _ => Option.none

/-- An address string as the 128-bit value `PySubnetTree` stores: IPv6
directly, IPv4 as v4-mapped IPv6. -/
def parseIPAddr (s : String) : Option Nat :=
  if s.data.contains ':' then parseIPv6 s
  else (parseIPv4 s).map (fun v => 0xffff * 4294967296 + v)

/-- All decimal digits (mask length). -/
def parseMaskLen (cs : List Char) : Option Nat :=
  match cs with
  | [] => Option.none
  | _ => cs.foldlM (fun acc c => if isDigitC c then some (acc * 10 + digitVal c) else Option.none) 0

/-- A CIDR string as (128-bit value, 128-bit mask length): IPv4 prefixes map
into the v4-mapped range with length + 96; a bare address gets the full
length. -/
def parseCIDR (s : String) : Option (Nat × Nat) :=
  match strSplit s "/" with
  | [a] => (parseIPAddr a).map (fun v => (v, 128))
  | [a, l] => do
    let len ← parseMaskLen l.data
    if a.data.contains ':' then do
      let v ← parseIPv6 a
      if len ≤ 128 then some (v, len) else Option.none
    else do
      let v ← parseIPv4 a
      if len ≤ 32 then some (0xffff * 4294967296 + v, len + 96) else Option.none
  | _ => Option.none

/-- Does the CIDR (as parsed) contain the 128-bit address? -/
def cidrMatchN (cm : Nat × Nat) (ip : Nat) : Bool :=
  ip / 2 ^ (128 - cm.2) = cm.1 / 2 ^ (128 - cm.2)

/-- Does the CIDR string contain the 128-bit address? (Unparseable prefixes
cannot have been inserted, see `treeInsert`.) -/
def cidrMatchStr (c : String) (ip : Nat) : Bool :=
  match parseCIDR c with
  | some cm => cidrMatchN cm ip
  | Option.none => false

/-- A `SubnetTree.SubnetTree` as its insertion history: prefix string and
stored value. -/
abbrev SubnetTreeM := List (String × String)

/-- `tree[cidr] = v`: `ValueError` when the prefix does not parse. -/
def treeInsert (t : SubnetTreeM) (cidr v : String) : Except PyErr SubnetTreeM :=
  if (parseCIDR cidr).isSome then .ok (t ++ [(cidr, v)]) else .error .valueError

/-- Does any prefix inserted into the tree contain the (parsed) address? -/
def treeMatches (t : SubnetTreeM) (n : Nat) : Bool :=
  t.any (fun p => cidrMatchStr p.1 n)

/-- `ip in tree`: `ValueError` when the address does not parse, else true
iff some inserted prefix contains it. -/
def treeContains (t : SubnetTreeM) (ip : String) : Except PyErr Bool :=
  match parseIPAddr ip with
  | some n => .ok (treeMatches t n)
  | Option.none => .error .valueError

/-- `EgressSKU` from `subnettree.py`. -/
inductive EgressSKU where
  | REGION
  | INTERREGION
  | INTERNET
deriving DecidableEq, Repr

/-- `EgressSKU.value`. -/
def EgressSKU.value : EgressSKU → String
  | .REGION => "EGRESS-REGION"
  | .INTERREGION => "EGRESS-INTERREGION"
  | .INTERNET => "EGRESS-INTERNET"

/-- One entry of the ip-ranges document: `prefix.get("region", "")`,
`prefix.get("ip_prefix")`, `prefix.get("ipv6_prefix")`. (The JSON field
names end in a token the development avoids in identifiers, hence `pfx`.) -/
structure AWSRangeEntry where
  region : String
  ip_pfx : Option String
  ipv6_pfx : Option String
deriving DecidableEq, Repr

/-- The ip-ranges document shape consumed by `build_trees`
(`ip_data.get("prefixes", [])`). -/
structure IPRangeDoc where
  prefixes : List AWSRangeEntry
deriving DecidableEq, Repr

/-- One `if cidr: ... tree[cidr] = value` step of `build_trees`: skip a
missing or falsy (empty) prefix, else insert into the partition selected by
the region comparison. -/
def addPfx (ts : SubnetTreeM × SubnetTreeM) (current_region region : String)
    (cidr : Option String) : Except PyErr (SubnetTreeM × SubnetTreeM) :=
  match cidr with
  | Option.none => .ok ts
  | some c =>
    if c = "" then .ok ts
    else if region = current_region then
      (treeInsert ts.1 c EgressSKU.REGION.value).map (fun t => (t, ts.2))
    else
      (treeInsert ts.2 c EgressSKU.INTERREGION.value).map (fun t => (ts.1, t))

/-- `AWSIPClassifier.build_trees`: partition every entry's IPv4 and IPv6
prefixes into the same-region tree and the other-regions tree. -/
def build_trees (ip_data : IPRangeDoc) (current_region : String) :
    Except PyErr (SubnetTreeM × SubnetTreeM) :=
  ip_data.prefixes.foldlM
    (fun ts p => do
      let ts1 ← addPfx ts current_region p.region p.ip_pfx
      addPfx ts1 current_region p.region p.ipv6_pfx)
    ([], [])

/-- `AWSIPClassifier.classify`. -/
def classify (current_tree aws_tree : SubnetTreeM) (client_ip : String) :
    Except PyErr EgressSKU := do
  if (← treeContains current_tree client_ip) then return .REGION
  else if (← treeContains aws_tree client_ip) then return .INTERREGION
  else return .INTERNET

/-- How `AWSIPClassifier.__init__` can fail. -/
inductive InitErr where
  | noFallback
  | fallbackFailed
  | buildError (e : PyErr)
deriving DecidableEq, Repr

/-- `AWSIPClassifier.__init__`: `fetched` is the outcome of the
`requests.get(...).json()` attempt, `fallback` is `None` when no
`fallback_file` is configured and otherwise the outcome of loading it; a
document obtained from either source is passed to `build_trees`, whose
exceptions propagate out of the constructor. -/
def classifierInit (current_region : String) (fetched : Except Unit IPRangeDoc)
    (fallback : Option (Except Unit IPRangeDoc)) :
    Except InitErr (SubnetTreeM × SubnetTreeM) :=
  match fetched with
  | .ok d => (build_trees d current_region).mapError .buildError
  | .error _ =>
    match fallback with
    | Option.none => .error .noFallback
    | some (.error _) => .error .fallbackFailed
    | some (.ok d) => (build_trees d current_region).mapError .buildError

/-! ## `scanner.py`: per-line parsing -/

/-- The per-line event dictionary built by `BillingScanner.process_log_line`. -/
structure LogEvent where
  uuid : String
  workspace : String
  sku : String
  data_size : Int
  timestamp : String
  aggregation_key : String
deriving DecidableEq, Repr

/-- The literal domain suffix `process_log_line` tests the host header
against (hardcoded in the function body; `Config.WORKSPACES_DOMAIN` is not
consulted there). -/
def expected_domain : String := "eodatahub-workspaces.org.uk"

/-- `fields[17] if len(fields) > 17 else ""`. -/
def xHostHeaderOf (fields : List String) : String :=
  if fields.length > 17 then (fields.get? 17).getD "" else ""

/-- The workspace extraction of `process_log_line`: if the host header ends
with `expected_domain`, take `parts[0]` of the dot-split when nonempty. -/
def workspaceFromHost (x_host_header : String) : Option String :=
  if strEndsWith x_host_header expected_domain then
    match strSplit x_host_header "." with
    | p :: _ => if p ≠ "" then some p else Option.none
    | [] => Option.none
  else Option.none

/-- The body of the `try` block in `process_log_line`: the statements run in
order and the first raised exception is the `Except.error` outcome. -/
def processLogLineBody (current_tree aws_tree : SubnetTreeM) (line : String)
    (log_filename : String) : Except PyErr (Option LogEvent) :=
  match pyIndex (strSplit line "\t") 2 with
  | .error e => .error e
  | .ok date =>
    match pyIndex (strSplit line "\t") 3 with
    | .error e => .error e
    | .ok time_str =>
      match pyIndex (strSplit line "\t") 5 with
      | .error e => .error e
      | .ok sc_str =>
        match pyInt sc_str with
        | .error e => .error e
        | .ok sc_bytes =>
          match pyIndex (strSplit line "\t") 6 with
          | .error e => .error e
          | .ok client_ip =>
            match workspaceFromHost (xHostHeaderOf (strSplit line "\t")) with
            | Option.none => .ok Option.none
            | some workspace =>
              match classify current_tree aws_tree client_ip with
              | .error e => .error e
              | .ok sku_enum =>
                .ok (some ⟨uuid5dns (log_filename ++ "-" ++ workspace ++ "-" ++ sku_enum.value),
                  workspace, sku_enum.value, sc_bytes, date ++ "T" ++ time_str ++ "Z",
                  log_filename ++ "-" ++ workspace ++ "-" ++ sku_enum.value⟩)

/-- `BillingScanner.process_log_line`: empty/comment lines are skipped
before the `try`; the `except Exception` branch logs and returns `None`. -/
def process_log_line (current_tree aws_tree : SubnetTreeM) (line : String)
    (log_filename : String) : Option LogEvent :=
  if pyStrip line = "" || strStartsWith line "#" then Option.none
  else
    match processLogLineBody current_tree aws_tree line log_filename with
    | .ok r => r
    | .error _ => Option.none

/-! ## `scanner.py`: per-file aggregation and emission -/

/-- One value of the aggregation `defaultdict` in `process_log_file`. -/
structure Group where
  data_size : Int
  earliest : Option PyDateTime
  latest : Option PyDateTime
  workspace : Option String
  sku : Option String
deriving DecidableEq, Repr

/-- The `defaultdict` initializer. -/
def emptyGroup : Group := ⟨0, Option.none, Option.none, Option.none, Option.none⟩

/-- The timestamp a record contributes:
`datetime.fromisoformat(event_data["timestamp"].replace("Z", ""))`. -/
def tsOf (ev : LogEvent) : Except PyErr PyDateTime :=
  fromisoformat (strReplace ev.timestamp "Z" "")

/-- The body of the aggregation loop for one record: add the byte count,
then update the interval ends with the parsed timestamp (whose
`fromisoformat` call is not inside any `try` and so can propagate). -/
def groupStep (g : Group) (ev : LogEvent) : Except PyErr Group :=
  let g1 : Group := { g with data_size := g.data_size + ev.data_size }
  match tsOf ev with
  | .error e => .error e
  | .ok ts =>
    let e' := match g1.earliest with
      | Option.none => some ts
      | some cur => if dtLt ts cur then some ts else some cur
    let l' := match g1.latest with
      | Option.none => some ts
      | some cur => if dtLt cur ts then some ts else some cur
    .ok { g1 with earliest := e', latest := l',
                  workspace := some ev.workspace, sku := some ev.sku }

/-- `aggregation[group_key]` (a `defaultdict`): the stored group or a fresh
one. -/
def aggLookup (agg : List (String × Group)) (k : String) : Group :=
  (((agg.find? (fun p => p.1 == k)).map (fun p => p.2)).getD emptyGroup)

/-- Store back the mutated group, preserving dict insertion order (Python
dict semantics, which fixes the later emission order). -/
def aggStore (agg : List (String × Group)) (k : String) (g : Group) :
    List (String × Group) :=
  if agg.any (fun p => p.1 == k) then
    agg.map (fun p => if p.1 == k then (k, g) else p)
  else agg ++ [(k, g)]

/-- Aggregate one parsed record. -/
def aggStepE (agg : List (String × Group)) (ev : LogEvent) :
    Except PyErr (List (String × Group)) :=
  match groupStep (aggLookup agg ev.aggregation_key) ev with
  | .error e => .error e
  | .ok g => .ok (aggStore agg ev.aggregation_key g)

/-- Aggregate a record sequence (the loop over `content.splitlines()`
restricted to lines that produced a record). -/
def aggregate (events : List LogEvent) : Except PyErr (List (String × Group)) :=
  events.foldlM aggStepE []

/-- The full aggregation of a file's content. -/
def aggregateLines (current_tree aws_tree : SubnetTreeM) (content : String)
    (key : String) : Except PyErr (List (String × Group)) :=
  (pySplitlines content).foldlM
    (fun agg line =>
      match process_log_line current_tree aws_tree line key with
      | Option.none => .ok agg
      | some ev => aggStepE agg ev)
    []

/-- The `messages.BillingEvent` fields the scanner sets. `quantity` is
`float(group["data_size"])` in Python; the byte counts involved are exact in
both representations, so it is kept as the integer. -/
structure BillingEvent where
  uuid : String
  event_start : String
  event_end : String
  sku : Option String
  workspace : Option String
  quantity : Int
deriving DecidableEq, Repr

/-- Build the `BillingEvent` for one aggregated group:
`uuid.uuid5(uuid.NAMESPACE_DNS, group_key)`, `isoformat() + "Z"` on the
interval ends (`.isoformat()` on a `None` end would raise
`AttributeError`). -/
def mkBillingEvent (group_key : String) (g : Group) : Except PyErr BillingEvent :=
  match g.earliest, g.latest with
  | some e, some l =>
    .ok ⟨uuid5dns group_key, e.isoformat ++ "Z", l.isoformat ++ "Z",
         g.sku, g.workspace, g.data_size⟩
  | _, _ => .error .attributeError

/-- The emission loop of `process_log_file`: one event per group in dict
order; a failing `producer.send` is caught and ends the file with `False`.
Returns the outcome together with the events the producer accepted. -/
def emitGroups (send : BillingEvent → Bool) :
    List (String × Group) → List BillingEvent → Except PyErr Bool × List BillingEvent
  | [], acc => (.ok true, acc)
  | (gk, g) :: rest, acc =>
    match mkBillingEvent gk g with
    | .error e => (.error e, acc)
    | .ok ev => if send ev then emitGroups send rest (acc ++ [ev]) else (.ok false, acc)

/-- `BillingScanner.process_log_file`. `download` is
`s3_utils.download_file`, which re-raises download failures; falsy (empty)
content returns `False`; aggregation exceptions propagate. -/
def process_log_file (current_tree aws_tree : SubnetTreeM) (send : BillingEvent → Bool)
    (download : String → Except PyErr String) (key : String) :
    Except PyErr Bool × List BillingEvent :=
  match download key with
  | .error e => (.error e, [])
  | .ok content =>
    if content = "" then (.ok false, [])
    else
      match aggregateLines current_tree aws_tree content key with
      | .error e => (.error e, [])
      | .ok agg => emitGroups send agg []

/-! ## `state.py`: `ScannerState` -/

/-- Is a value hashable (usable as a set element)? -/
def pvalHashable : Pval → Bool
  | .list _ => false
  | .dict _ => false
  | _ => true

/-- Deduplicate hashable values by Python equality (set construction). -/
def dedupP (xs : List Pval) : List Pval :=
  xs.foldl (fun acc x => if acc.any (fun y => pvalScalarBeq y x) then acc else acc ++ [x]) []

/-- Python `set(v)`: lists of hashables, strings (their characters) and
dicts (their keys) are iterable; other values raise `TypeError`, as does an
unhashable element. -/
def pySetOf : Pval → Except PyErr (List Pval)
  | .list xs => if xs.all pvalHashable then .ok (dedupP xs) else .error .typeError
  | .str s => .ok (dedupP (s.data.map (fun c => Pval.str (String.mk [c]))))
  | .dict kvs => .ok (dedupP (kvs.map (fun p => Pval.str p.1)))
  | _ => .error .typeError

/-- `ScannerState.__enter__` after the file is opened and locked:
`stateContent` is the outcome of `json.load` (`.error` = a
`json.JSONDecodeError`, which the method catches by falling back to the
empty set); the result is `self.processed`. A missing file was pre-created
as `{"processed": []}`, i.e. `.ok (.dict [("processed", .list [])])`. -/
def stateEnter (stateContent : Except Unit Pval) : Except PyErr (List Pval) :=
  match stateContent with
  | .error _ => .ok []
  | .ok data =>
    match pyDictGet data "processed" (Pval.list []) with
    | .error e => .error e
    | .ok v => pySetOf v

/-- `ScannerState.already_scanned`. -/
def already_scanned (processed : List Pval) (file_key : String) : Bool :=
  processed.any (Pval.isStrEq file_key)

/-- `ScannerState.mark_scanned` (`set.add`). -/
def mark_scanned (processed : List Pval) (file_key : String) : List Pval :=
  if processed.any (Pval.isStrEq file_key) then processed
  else processed ++ [Pval.str file_key]

/-- A run of the `with ScannerState(...)` block for claim C10: the body is
abstracted to the sequence of `mark_scanned` calls it performs before it
either returns or raises. `with`-statement semantics: when `__enter__`
raises, the body and `__exit__` do not run (`Option.none`: the file is left
unchanged); otherwise `__exit__` writes `list(self.processed)` back whether
or not the body raised, so the written content does not depend on
`bodyRaises`. -/
def withStateRun (stateContent : Except Unit Pval) (marks : List String)
    (bodyRaises : Bool) : Option (List Pval) :=
  match stateEnter stateContent with
  | .error _ => Option.none
  | .ok entered =>
    let _ := bodyRaises
    some (marks.foldl mark_scanned entered)

/-! ## `scanner.py`: `get_start_after_key`, listing, `run` -/

/-- `BillingScanner.get_start_after_key`: read the state file, return
`max(processed)` when nonempty, `""` when empty; any exception (unreadable
or unparseable file, non-dict content, un-maxable elements) is caught and
yields `""`. A non-string maximum would be rejected by the S3 client when
used as `StartAfter`; it surfaces here as `typeError`. -/
def get_start_after_key (stateContent : Except Unit Pval) : String :=
  let body : Except PyErr String :=
    match stateContent with
    | .error _ => .error .jsonError
    | .ok data => do
      let pk ← pyDictGet data "processed" (Pval.list [])
      if pyTruthy pk then
        match (← pyMaxP pk) with
        | .str s => .ok s
        | _ => .error .typeError
      else .ok ""
  match body with
  | .ok s => s
  | .error _ => ""

/-- `s3_utils.list_files`, modelled from the documented S3 ListObjectsV2
semantics the code relies on: the bucket's keys in lexicographic (byte)
order filtered to the prefix, and — only when a `StartAfter` key was passed,
which `list_files` does only for a truthy (nonempty) `start_after` — to keys
strictly greater than it. -/
def list_files (bucketKeys : List String) (pfx : String) (start_after : String) :
    List String :=
  let base := bucketKeys.filter (fun k => strStartsWith k pfx)
  if start_after ≠ "" then base.filter (fun k => strLt start_after k) else base

/-- The environment of one `BillingScanner.run` call: the external
collaborators and configuration it consumes. -/
structure RunEnv where
  bucketKeys : List String
  log_folder : String
  distribution_id : String
  stateContent : Except Unit Pval
  current_tree : SubnetTreeM
  aws_tree : SubnetTreeM
  download : String → Except PyErr String
  send : BillingEvent → Bool

/-- The listing prefix of `BillingScanner.list_log_files`. -/
def listPfxOf (env : RunEnv) : String :=
  if env.distribution_id ≠ "" then env.log_folder ++ env.distribution_id ++ "."
  else env.log_folder

/-- `BillingScanner.list_log_files`. -/
def list_log_files (env : RunEnv) : List String :=
  list_files env.bucketKeys (listPfxOf env) (get_start_after_key env.stateContent)

/-- The outcome of a run: the processed list written back at `__exit__`
(`Option.none` when `__enter__` raised and the file was left unchanged), the
events the producer accepted, and whether the run raised. -/
structure RunResult where
  written : Option (List Pval)
  delivered : List BillingEvent
  outcome : Except PyErr Unit

/-- The `for key in new_files` loop of `run`: a file that processed
successfully is marked; a `False` outcome is logged and skipped; an
exception aborts the loop (propagating out of the `with` block, whose
`__exit__` still writes the state accumulated so far). -/
def runLoop (current_tree aws_tree : SubnetTreeM) (send : BillingEvent → Bool)
    (download : String → Except PyErr String) :
    List String → List Pval → List BillingEvent →
    List Pval × List BillingEvent × Except PyErr Unit
  | [], processed, delivered => (processed, delivered, .ok ())
  | key :: rest, processed, delivered =>
    match process_log_file current_tree aws_tree send download key with
    | (.error e, evs) => (processed, delivered ++ evs, .error e)
    | (.ok true, evs) =>
      runLoop current_tree aws_tree send download rest (mark_scanned processed key)
        (delivered ++ evs)
    | (.ok false, evs) =>
      runLoop current_tree aws_tree send download rest processed (delivered ++ evs)

/-- `BillingScanner.run`. -/
def run (env : RunEnv) : RunResult :=
  let all_files := list_log_files env
  match stateEnter env.stateContent with
  | .error e => ⟨Option.none, [], .error e⟩
  | .ok entered =>
    let new_files := all_files.filter (fun k => !(already_scanned entered k))
    match runLoop env.current_tree env.aws_tree env.send env.download new_files entered [] with
    | (finalProcessed, delivered, outcome) => ⟨some finalProcessed, delivered, outcome⟩

/-! ## Spec-side definitions and concrete scenario data -/

/-- Python `min` of two datetimes as the aggregation loop computes it
(`ts if ts < cur else cur`). -/
def dtMin (cur ts : PyDateTime) : PyDateTime := if dtLt ts cur then ts else cur

/-- Python `max` of two datetimes as the aggregation loop computes it. -/
def dtMax (cur ts : PyDateTime) : PyDateTime := if dtLt cur ts then ts else cur

/-- The parsed timestamps a record list contributes, in order. -/
def tssOf (evs : List LogEvent) : List PyDateTime :=
  evs.filterMap (fun e => (tsOf e).toOption)

/-- The ip-ranges document of the repository's classifier test fixture. -/
def docA : IPRangeDoc :=
  ⟨[⟨"eu-west-2", some "10.1.0.0/16", some "2001:db8::/32"⟩,
    ⟨"us-east-1", some "192.168.0.0/16", Option.none⟩]⟩

/-- The same-region tree `build_trees docA "eu-west-2"` produces. -/
def ctA : SubnetTreeM := [("10.1.0.0/16", "EGRESS-REGION"), ("2001:db8::/32", "EGRESS-REGION")]

/-- The other-regions tree `build_trees docA "eu-west-2"` produces. -/
def awsA : SubnetTreeM := [("192.168.0.0/16", "EGRESS-INTERREGION")]

/-- A malformed ip-ranges document: valid JSON of the right shape whose
prefix string is not a CIDR. -/
def badDoc : IPRangeDoc := ⟨[⟨"eu-west-2", some "not-a-cidr", Option.none⟩]⟩

/-- First log line of the repository's aggregation test (398 bytes at
13:38:48, workspace1, client IP in the same-region range). -/
def lineA1 : String :=
  "1744033128\tEYK26O46YS1D0\t2025-04-07\t13:38:48\tLHR3-C2\t398\t10.1.2.3\tGET\tdummy.example.com\t/notebooks/user/workspace1/api/sessions\t200\t-\t-\t-\t-\tMiss\t-\tworkspace1.eodatahub-workspaces.org.uk"

/-- Second log line (200 bytes at 13:39:00, same aggregation key). -/
def lineA2 : String :=
  "1744033128\tEYK26O46YS1D0\t2025-04-07\t13:39:00\tLHR3-C2\t200\t10.1.2.3\tGET\tdummy.example.com\t/notebooks/user/workspace1/api/sessions\t200\t-\t-\t-\t-\tMiss\t-\tworkspace1.eodatahub-workspaces.org.uk"

/-- The two-line log file content of the aggregation scenario. -/
def contentC3 : String := "#Version: 1.0\n" ++ lineA1 ++ "\n" ++ lineA2 ++ "\n"

/-- A log line whose host has two labels before the workspace-domain suffix. -/
def lineC7 : String :=
  "1744033128\tEYK26O46YS1D0\t2025-04-07\t13:38:48\tLHR3-C2\t398\t10.1.2.3\tGET\tdummy.example.com\t/p\t200\t-\t-\t-\t-\tMiss\t-\twsx.cluster.eodatahub-workspaces.org.uk"

/-- A one-line log file for workspace `wsa`. -/
def contentWa : String :=
  "1744033128\tE1\t2025-04-07\t13:38:48\tLHR3-C2\t100\t10.1.2.3\tGET\th\t/p\t200\t-\t-\t-\t-\tMiss\t-\twsa.eodatahub-workspaces.org.uk\n"

/-- A one-line log file for workspace `wsb`. -/
def contentWb : String :=
  "1744033128\tE1\t2025-04-07\t13:40:00\tLHR3-C2\t150\t10.1.2.3\tGET\th\t/p\t200\t-\t-\t-\t-\tMiss\t-\twsb.eodatahub-workspaces.org.uk\n"

/-- Downloads for the two-file bucket: both files download fine. -/
def dlAB : String → Except PyErr String :=
  fun k => if k = "log-a" then .ok contentWa else .ok contentWb

/-- Downloads where the first file's download raises. -/
def dlC6 : String → Except PyErr String :=
  fun k => if k = "log-a" then .error .valueError else .ok contentWb

/-- Downloads where the first file's content is empty. -/
def dlC6e : String → Except PyErr String :=
  fun k => if k = "log-a" then .ok "" else .ok contentWb

/-- A producer that rejects exactly the `wsa` group's event. -/
def sendFailWa : BillingEvent → Bool := fun ev => ev.workspace != some "wsa"

/-- Run 1 of the retry scenario: fresh state, both files listed, emission
fails for `log-a`'s only group and succeeds for `log-b`'s. -/
def envC1a : RunEnv :=
  ⟨["log-a", "log-b"], "", "", .ok (.dict [("processed", .list [])]),
   ctA, awsA, dlAB, sendFailWa⟩

/-- Run 2 of the retry scenario: the state written by run 1, emission now
working. -/
def envC1b : RunEnv :=
  ⟨["log-a", "log-b"], "", "", .ok (.dict [("processed", .list [Pval.str "log-b"])]),
   ctA, awsA, dlAB, fun _ => true⟩

/-- A run whose first candidate's download raises. -/
def envC6 : RunEnv :=
  ⟨["log-a", "log-b"], "", "", .ok (.dict [("processed", .list [])]),
   ctA, awsA, dlC6, fun _ => true⟩

/-- The same run with downloads working: both files process. -/
def envC6ok : RunEnv :=
  ⟨["log-a", "log-b"], "", "", .ok (.dict [("processed", .list [])]),
   ctA, awsA, dlAB, fun _ => true⟩

/-- The run with an empty-content first candidate. -/
def envC6e : RunEnv :=
  ⟨["log-a", "log-b"], "", "", .ok (.dict [("processed", .list [])]),
   ctA, awsA, dlC6e, fun _ => true⟩

/-- A log line whose host header does not end with the workspace domain. -/
def lineBadHost : String :=
  "1744033128\tE1\t2025-04-07\t13:38:48\tLHR3-C2\t398\t10.1.2.3\tGET\th\t/p\t200\t-\t-\t-\t-\tMiss\t-\texample.com"

/-- The record `process_log_line` produces for `lineA1` (witness data). -/
def evW1 : LogEvent :=
  ⟨"0b0b1618-8bd5-5ccc-ad25-c310c6bd7ba3", "workspace1", "EGRESS-REGION", 398,
   "2025-04-07T13:38:48Z", "dummy_log.txt-workspace1-EGRESS-REGION"⟩

/-- The record `process_log_line` produces for `lineA2` (witness data). -/
def evW2 : LogEvent :=
  ⟨"0b0b1618-8bd5-5ccc-ad25-c310c6bd7ba3", "workspace1", "EGRESS-REGION", 200,
   "2025-04-07T13:39:00Z", "dummy_log.txt-workspace1-EGRESS-REGION"⟩

/-! ## Order facts about the `datetime` comparison -/

theorem dtLt_irrefl (a : PyDateTime) : dtLt a a = false := by
  simp [dtLt, dtLtP]

theorem dtLt_trans {a b c : PyDateTime} (h1 : dtLt a b = true) (h2 : dtLt b c = true) :
    dtLt a c = true := by
  simp only [dtLt, decide_eq_true_eq] at h1 h2 ⊢
  omega

theorem dtLe_refl (a : PyDateTime) : dtLe a a = true := by
  simp [dtLe, dtLt_irrefl]

theorem dtLe_trans {a b c : PyDateTime} (h1 : dtLe a b = true) (h2 : dtLe b c = true) :
    dtLe a c = true := by
  simp only [dtLe, dtLt, Bool.not_eq_true', decide_eq_false_iff_not] at h1 h2 ⊢
  omega

theorem dtLt_le {a b : PyDateTime} (h : dtLt a b = true) : dtLe a b = true := by
  simp only [dtLe, dtLt, decide_eq_true_eq, Bool.not_eq_true', decide_eq_false_iff_not] at h ⊢
  omega

theorem dtMin_le_left (a b : PyDateTime) : dtLe (dtMin a b) a = true := by
  unfold dtMin
  split
  · next h => exact dtLt_le h
  · exact dtLe_refl a

theorem dtMin_le_right (a b : PyDateTime) : dtLe (dtMin a b) b = true := by
  unfold dtMin
  split
  · exact dtLe_refl b
  · next h =>
    simp only [dtLe, dtLt, Bool.not_eq_true', decide_eq_false_iff_not,
      Bool.not_eq_true, decide_eq_false_iff_not] at h ⊢
    omega

theorem dtMax_ge_left (a b : PyDateTime) : dtLe a (dtMax a b) = true := by
  unfold dtMax
  split
  · next h => exact dtLt_le h
  · exact dtLe_refl a

theorem dtMax_ge_right (a b : PyDateTime) : dtLe b (dtMax a b) = true := by
  unfold dtMax
  split
  · exact dtLe_refl b
  · next h =>
    simp only [dtLe, dtLt, Bool.not_eq_true', decide_eq_false_iff_not,
      Bool.not_eq_true, decide_eq_false_iff_not] at h ⊢
    omega

theorem foldl_dtMin_le_init (ds : List PyDateTime) :
    ∀ d0, dtLe (ds.foldl dtMin d0) d0 = true := by
  induction ds with
  | nil => intro d0; exact dtLe_refl d0
  | cons d rest ih =>
    intro d0
    exact dtLe_trans (ih (dtMin d0 d)) (dtMin_le_left d0 d)

theorem foldl_dtMax_ge_init (ds : List PyDateTime) :
    ∀ d0, dtLe d0 (ds.foldl dtMax d0) = true := by
  induction ds with
  | nil => intro d0; exact dtLe_refl d0
  | cons d rest ih =>
    intro d0
    exact dtLe_trans (dtMax_ge_left d0 d) (ih (dtMax d0 d))

theorem foldl_dtMin_le_mem (ds : List PyDateTime) :
    ∀ d0 x, x ∈ ds → dtLe (ds.foldl dtMin d0) x = true := by
  induction ds with
  | nil => intro _ x hx; cases hx
  | cons d rest ih =>
    intro d0 x hx
    rcases List.mem_cons.mp hx with h | h
    · subst h
      exact dtLe_trans (foldl_dtMin_le_init rest (dtMin d0 x)) (dtMin_le_right d0 x)
    · exact ih (dtMin d0 d) x h

theorem foldl_dtMax_ge_mem (ds : List PyDateTime) :
    ∀ d0 x, x ∈ ds → dtLe x (ds.foldl dtMax d0) = true := by
  induction ds with
  | nil => intro _ x hx; cases hx
  | cons d rest ih =>
    intro d0 x hx
    rcases List.mem_cons.mp hx with h | h
    · subst h
      exact dtLe_trans (dtMax_ge_right d0 x) (foldl_dtMax_ge_init rest (dtMax d0 x))
    · exact ih (dtMax d0 d) x h

theorem foldl_dtMin_mem (ds : List PyDateTime) :
    ∀ d0, ds.foldl dtMin d0 ∈ d0 :: ds := by
  induction ds with
  | nil => intro d0; simp
  | cons d rest ih =>
    intro d0
    have h := ih (dtMin d0 d)
    rcases List.mem_cons.mp h with h' | h'
    · rw [List.foldl_cons, h']
      unfold dtMin
      split
      · simp
      · simp
    · simp only [List.foldl_cons]
      exact List.mem_cons_of_mem _ (List.mem_cons_of_mem _ h')

theorem foldl_dtMax_mem (ds : List PyDateTime) :
    ∀ d0, ds.foldl dtMax d0 ∈ d0 :: ds := by
  induction ds with
  | nil => intro d0; simp
  | cons d rest ih =>
    intro d0
    have h := ih (dtMax d0 d)
    rcases List.mem_cons.mp h with h' | h'
    · rw [List.foldl_cons, h']
      unfold dtMax
      split
      · simp
      · simp
    · simp only [List.foldl_cons]
      exact List.mem_cons_of_mem _ (List.mem_cons_of_mem _ h')

theorem foldl_dtMin_le_dtMax (ds : List PyDateTime) (d0 : PyDateTime) :
    dtLe (ds.foldl dtMin d0) (ds.foldl dtMax d0) = true :=
  dtLe_trans (foldl_dtMin_le_init ds d0) (foldl_dtMax_ge_init ds d0)

/-! ## Aggregation lemmas -/

@[simp] theorem exceptOkBind {ε α β : Type} (a : α) (f : α → Except ε β) :
    (Except.ok a >>= f) = f a := rfl

@[simp] theorem exceptErrorBind {ε α β : Type} (e : ε) (f : α → Except ε β) :
    ((Except.error e : Except ε α) >>= f) = .error e := rfl

@[simp] theorem exceptMapOk {ε α β : Type} (f : α → β) (a : α) :
    Except.map f (Except.ok a : Except ε α) = .ok (f a) := rfl

@[simp] theorem exceptMapError {ε α β : Type} (f : α → β) (e : ε) :
    Except.map f (Except.error e : Except ε α) = .error e := rfl

theorem groupStep_ok {e : LogEvent} {d : PyDateTime} (g : Group) {a b : PyDateTime}
    (hd : tsOf e = .ok d) (he : g.earliest = some a) (hl : g.latest = some b) :
    groupStep g e = .ok ⟨g.data_size + e.data_size, some (dtMin a d), some (dtMax b d),
      some e.workspace, some e.sku⟩ := by
  simp only [groupStep, hd, he, hl, dtMin, dtMax]
  split_ifs <;> rfl

theorem groupStep_first {e : LogEvent} {d : PyDateTime} (hd : tsOf e = .ok d) :
    groupStep emptyGroup e =
      .ok ⟨e.data_size, some d, some d, some e.workspace, some e.sku⟩ := by
  simp [groupStep, emptyGroup, hd]

theorem foldl_groupStep_spec (evs : List LogEvent) :
    ∀ (g : Group) (a b : PyDateTime),
      (∀ e ∈ evs, ∃ d, tsOf e = .ok d) →
      g.earliest = some a → g.latest = some b →
      ∃ G, evs.foldlM groupStep g = .ok G ∧
        G.data_size = g.data_size + (evs.map (fun e => e.data_size)).sum ∧
        G.earliest = some ((tssOf evs).foldl dtMin a) ∧
        G.latest = some ((tssOf evs).foldl dtMax b) := by
  induction evs with
  | nil =>
    intro g a b _ he hl
    exact ⟨g, rfl, by simp, by simp [tssOf, he], by simp [tssOf, hl]⟩
  | cons e rest ih =>
    intro g a b hts he hl
    obtain ⟨d, hd⟩ := hts e (List.mem_cons_self e rest)
    have hstep := groupStep_ok g hd he hl
    have htss : tssOf (e :: rest) = d :: tssOf rest := by
      simp [tssOf, hd, Except.toOption]
    obtain ⟨G, hG, hsize, hear, hlat⟩ :=
      ih ⟨g.data_size + e.data_size, some (dtMin a d), some (dtMax b d),
          some e.workspace, some e.sku⟩
        (dtMin a d) (dtMax b d) (fun e' he' => hts e' (List.mem_cons_of_mem _ he')) rfl rfl
    refine ⟨G, ?_, ?_, ?_, ?_⟩
    · show (groupStep g e >>= fun g' => rest.foldlM groupStep g') = .ok G
      rw [hstep]; simpa using hG
    · rw [hsize]; simp; omega
    · rw [hear, htss]; rfl
    · rw [hlat, htss]; rfl

theorem aggLookup_single (k : String) (g : Group) : aggLookup [(k, g)] k = g := by
  simp [aggLookup]

theorem aggStore_single (k : String) (g g' : Group) : aggStore [(k, g)] k g' = [(k, g')] := by
  simp [aggStore]

theorem foldl_aggStepE_single_key (k : String) (evs : List LogEvent) :
    ∀ g, (∀ e ∈ evs, e.aggregation_key = k) →
      evs.foldlM aggStepE [(k, g)] = (evs.foldlM groupStep g).map (fun G => [(k, G)]) := by
  induction evs with
  | nil => intro g _; rfl
  | cons e rest ih =>
    intro g hk
    have hkey : e.aggregation_key = k := hk e (List.mem_cons_self e rest)
    show (aggStepE [(k, g)] e >>= fun agg => rest.foldlM aggStepE agg) = _
    cases hstep : groupStep g e with
    | error er =>
      have : aggStepE [(k, g)] e = .error er := by
        simp [aggStepE, hkey, aggLookup_single, hstep]
      rw [this]
      show _ = Except.map _ (groupStep g e >>= fun g' => rest.foldlM groupStep g')
      rw [hstep]
      rfl
    | ok g' =>
      have : aggStepE [(k, g)] e = .ok [(k, g')] := by
        simp [aggStepE, hkey, aggLookup_single, hstep, aggStore_single]
      rw [this]
      show _ = Except.map _ (groupStep g e >>= fun g'' => rest.foldlM groupStep g'')
      rw [hstep]
      simpa using ih g' (fun e' he' => hk e' (List.mem_cons_of_mem _ he'))

theorem aggregate_single_key (k : String) (e0 : LogEvent) (evs : List LogEvent)
    (hk : ∀ e ∈ e0 :: evs, e.aggregation_key = k)
    {d0 : PyDateTime} (hd0 : tsOf e0 = .ok d0) :
    aggregate (e0 :: evs) =
      (evs.foldlM groupStep ⟨e0.data_size, some d0, some d0, some e0.workspace, some e0.sku⟩).map
        (fun G => [(k, G)]) := by
  have hkey : e0.aggregation_key = k := hk e0 (List.mem_cons_self e0 evs)
  show (aggStepE [] e0 >>= fun agg => evs.foldlM aggStepE agg) = _
  have h1 : aggStepE [] e0 = .ok [(k, ⟨e0.data_size, some d0, some d0, some e0.workspace, some e0.sku⟩)] := by
    simp [aggStepE, aggLookup, aggStore, groupStep_first hd0, hkey]
  rw [h1]
  exact foldl_aggStepE_single_key k evs _ (fun e he => hk e (List.mem_cons_of_mem _ he))

/-! ## Claim C2: classification order and tie-break -/

/-- C2. For every client IP address (IPv4 or IPv6) that parses: `classify`
returns `EGRESS-REGION` if the IP matches any prefix of the same-region
tree, else `EGRESS-INTERREGION` if it matches any prefix of the
cross-region tree, else `EGRESS-INTERNET`; in particular an IP matching
both partitions is classified same-region. The closed conjuncts check the
spec's concrete scenarios over the repository's own test fixture and the
both-partitions tie-break. -/
theorem spec_c2 :
    (∀ (ct aws : SubnetTreeM) (ip : String) (n : Nat), parseIPAddr ip = some n →
      classify ct aws ip =
        .ok (if treeMatches ct n then .REGION
          else if treeMatches aws n then .INTERREGION else .INTERNET) ∧
      (treeMatches ct n = true → classify ct aws ip = .ok .REGION)) ∧
    build_trees docA "eu-west-2" = .ok (ctA, awsA) ∧
    classify ctA awsA "10.1.2.3" = .ok .REGION ∧
    classify ctA awsA "192.168.1.1" = .ok .INTERREGION ∧
    classify ctA awsA "8.8.8.8" = .ok .INTERNET ∧
    classify ctA awsA "2001:db8::1" = .ok .REGION ∧
    classify [("10.0.0.0/8", "EGRESS-REGION")] [("10.0.0.0/8", "EGRESS-INTERREGION")]
      "10.1.2.3" = .ok .REGION := by
  refine ⟨?_, by decide, by decide, by decide, by decide, by decide, by decide⟩
  intro ct aws ip n h
  constructor
  · cases hc : treeMatches ct n <;> cases ha : treeMatches aws n <;>
      simp [classify, treeContains, h, hc, ha, pure, Except.pure]
  · intro hc
    simp [classify, treeContains, h, hc, pure, Except.pure]

/-- Witness for C2: the universal conjunct applied to the same-region
scenario address. -/
theorem spec_c2_witness : classify ctA awsA "10.1.2.3" = .ok .REGION :=
  (spec_c2.1 ctA awsA "10.1.2.3" 281470849581571 (by decide)).2 (by decide)

/-! ## Claim C5: classifier construction failure policy (corrected) -/

/-- C5 counterexample: the live fetch succeeds (the HTTP request and JSON
parse both work) and no fallback is configured, yet construction still
raises, because the loaded document contains a prefix that is not a valid
CIDR and `tree[cidr] = value` inside `build_trees` raises `ValueError`.
The claim's "raises if and only if both sources fail (or no fallback)" is
therefore false at this input. -/
theorem spec_c5_counterexample :
    classifierInit "eu-west-2" (.ok badDoc) Option.none = .error (.buildError .valueError) := by
  decide

/-- C5 amended: construction fails with the no-fallback error exactly when
the fetch fails and no fallback is configured; with the fallback error
exactly when both sources fail; and when either source loads a document,
the result is exactly `build_trees` of that document — succeeding (with the
loaded partitions, never an empty default) if and only if every prefix in
the document parses, and propagating the `ValueError` otherwise. -/
theorem spec_c5_amended :
    (∀ region : String, classifierInit region (.error ()) Option.none = .error .noFallback) ∧
    (∀ region : String,
      classifierInit region (.error ()) (some (.error ())) = .error .fallbackFailed) ∧
    (∀ (region : String) (d : IPRangeDoc) (fb : Option (Except Unit IPRangeDoc)),
      classifierInit region (.ok d) fb = (build_trees d region).mapError .buildError) ∧
    (∀ (region : String) (d : IPRangeDoc),
      classifierInit region (.error ()) (some (.ok d)) =
        (build_trees d region).mapError .buildError) :=
  ⟨fun _ => rfl, fun _ => rfl, fun _ _ _ => rfl, fun _ _ => rfl⟩

/-- Witness for C5: the amended theorem applied to the test-fixture
document arriving via the fallback, evaluating to the two scenario trees. -/
theorem spec_c5_witness :
    classifierInit "eu-west-2" (.error ()) (some (.ok docA)) =
      (build_trees docA "eu-west-2").mapError .buildError ∧
    classifierInit "eu-west-2" (.error ()) (some (.ok docA)) = .ok (ctA, awsA) :=
  ⟨spec_c5_amended.2.2.2 "eu-west-2" docA,
   (spec_c5_amended.2.2.2 "eu-west-2" docA).trans (by decide)⟩

/-! ## Claim C8: corrupt state recovery (corrected) -/

/-- C8 counterexample: a state file whose content is valid JSON but not an
object — the array `[]` — makes `__enter__` raise (`data.get` on a list is
an `AttributeError`, and only `json.JSONDecodeError` is caught), so this
state-file corruption is fatal to the run, contradicting "state-file
corruption is never fatal". -/
theorem spec_c8_counterexample :
    stateEnter (.ok (.list [])) = .error .attributeError := rfl

/-- C8 amended: content that fails to parse as JSON is recovered as the
empty processed set, but content that parses to a non-object value raises
`AttributeError` out of `__enter__` (only JSON decode errors are
recovered); object content proceeds to `set(data.get("processed", []))`. -/
theorem spec_c8_amended :
    (stateEnter (.error ()) = .ok []) ∧
    (∀ v : Pval, (∀ kvs, v ≠ .dict kvs) → stateEnter (.ok v) = .error .attributeError) ∧
    (∀ kvs, stateEnter (.ok (.dict kvs)) =
      pySetOf ((((kvs.find? (fun p => p.1 == "processed")).map (fun p => p.2)).getD
        (.list [])))) := by
  refine ⟨rfl, ?_, fun kvs => rfl⟩
  intro v hv
  cases v with
  | dict kvs => exact absurd rfl (hv kvs)
  | str s => rfl
  | num n => rfl
  | list xs => rfl
  | bool b => rfl
  | none => rfl

/-- Witness for C8: the amended theorem applied to numeric content. -/
theorem spec_c8_witness : stateEnter (.ok (.num 3)) = .error .attributeError :=
  spec_c8_amended.2.1 (.num 3) (fun _ h => Pval.noConfusion h)

/-! ## Claim C10: state written at exit -/

theorem any_isStrEq (p : List Pval) (m : String) :
    p.any (Pval.isStrEq m) = true ↔ Pval.str m ∈ p := by
  rw [List.any_eq_true]
  constructor
  · rintro ⟨x, hx, hq⟩
    cases x with
    | str s =>
      have hs : s = m := by simpa [Pval.isStrEq] using hq
      exact hs ▸ hx
    | num n => simp [Pval.isStrEq] at hq
    | list xs => simp [Pval.isStrEq] at hq
    | dict kvs => simp [Pval.isStrEq] at hq
    | bool b => simp [Pval.isStrEq] at hq
    | none => simp [Pval.isStrEq] at hq
  · intro h
    exact ⟨Pval.str m, h, by simp [Pval.isStrEq]⟩

theorem mem_mark_scanned (p : List Pval) (m k : String) :
    (Pval.str k ∈ mark_scanned p m) ↔ (Pval.str k ∈ p ∨ k = m) := by
  unfold mark_scanned
  split
  · next h =>
    rw [any_isStrEq] at h
    exact ⟨Or.inl, fun h' => h'.elim id (fun he => he ▸ h)⟩
  · simp [List.mem_append, Pval.str.injEq]

theorem mem_foldl_mark (marks : List String) :
    ∀ (p : List Pval) (k : String),
      (Pval.str k ∈ marks.foldl mark_scanned p) ↔ (Pval.str k ∈ p ∨ k ∈ marks) := by
  induction marks with
  | nil => intro p k; simp
  | cons m rest ih =>
    intro p k
    rw [List.foldl_cons, ih, mem_mark_scanned, List.mem_cons, or_assoc]

/-- C10. Whenever `__enter__` succeeds, the state file written at `__exit__`
contains exactly the keys parsed at entry plus the keys passed to
`mark_scanned` before exit — independently of whether the body returned
normally or raised (the `with` statement runs `__exit__` either way), so
progress is durably preserved and keys are never removed. -/
theorem spec_c10 :
    ∀ (stateContent : Except Unit Pval) (marks : List String) (bodyRaises : Bool)
      (entered : List Pval) (k : String),
      stateEnter stateContent = .ok entered →
      withStateRun stateContent marks bodyRaises = withStateRun stateContent marks (!bodyRaises) ∧
      ∃ w, withStateRun stateContent marks bodyRaises = some w ∧
        ((Pval.str k ∈ w) ↔ (Pval.str k ∈ entered ∨ k ∈ marks)) := by
  intro st marks bodyRaises entered k h
  unfold withStateRun
  rw [h]
  exact ⟨rfl, marks.foldl mark_scanned entered, rfl, mem_foldl_mark marks entered k⟩

/-- Witness for C10: entry set `{"a"}`, one mark `"b"`, body raising. -/
theorem spec_c10_witness :
    withStateRun (.ok (.dict [("processed", .list [Pval.str "a"])])) ["b"] true =
      withStateRun (.ok (.dict [("processed", .list [Pval.str "a"])])) ["b"] (!true) ∧
    ∃ w, withStateRun (.ok (.dict [("processed", .list [Pval.str "a"])])) ["b"] true = some w ∧
      ((Pval.str "b" ∈ w) ↔ (Pval.str "b" ∈ [Pval.str "a"] ∨ "b" ∈ ["b"])) :=
  spec_c10 (.ok (.dict [("processed", .list [Pval.str "a"])])) ["b"] true [Pval.str "a"] "b" rfl

/-! ## Claim C3: aggregation sums sizes, interval is min/max of instants -/

theorem tsOk_exists {e : LogEvent} (h : (tsOf e).toOption.isSome = true) :
    ∃ d, tsOf e = .ok d := by
  cases hts : tsOf e with
  | ok d => exact ⟨d, rfl⟩
  | error er => rw [hts] at h; simp [Except.toOption] at h

theorem mem_tssOf {evs : List LogEvent} {e : LogEvent} {d : PyDateTime}
    (he : e ∈ evs) (hd : tsOf e = .ok d) : d ∈ tssOf evs := by
  rw [tssOf, List.mem_filterMap]
  exact ⟨e, he, by rw [hd]; rfl⟩

/-- C3. For every nonempty sequence of valid records sharing aggregation
key `k`, aggregation yields exactly one group whose `data_size` is the sum
of the byte counts and whose interval ends are the fold of Python's
`min`/`max` over the parsed timestamps (compared as instants); the minimum
and maximum are timestamps of contributing records, `earliest ≤ latest`,
and every contributing record's timestamp lies inside the interval. The
closed conjunct is the spec's concrete scenario: byte counts 398 and 200 at
`13:38:48Z`/`13:39:00Z` in workspace `workspace1`, tier `EGRESS-REGION`,
produce one event with quantity 598 and exactly that interval. -/
theorem spec_c3 :
    (∀ (k : String) (e0 : LogEvent) (evs : List LogEvent),
      (∀ e ∈ e0 :: evs, e.aggregation_key = k) →
      (∀ e ∈ e0 :: evs, (tsOf e).toOption.isSome = true) →
      ∃ G d0, tsOf e0 = .ok d0 ∧
        aggregate (e0 :: evs) = .ok [(k, G)] ∧
        G.data_size = ((e0 :: evs).map (fun e => e.data_size)).sum ∧
        G.earliest = some ((tssOf evs).foldl dtMin d0) ∧
        G.latest = some ((tssOf evs).foldl dtMax d0) ∧
        ((tssOf evs).foldl dtMin d0) ∈ (d0 :: tssOf evs) ∧
        ((tssOf evs).foldl dtMax d0) ∈ (d0 :: tssOf evs) ∧
        dtLe ((tssOf evs).foldl dtMin d0) ((tssOf evs).foldl dtMax d0) = true ∧
        (∀ e ∈ e0 :: evs, ∀ d, tsOf e = .ok d →
          dtLe ((tssOf evs).foldl dtMin d0) d = true ∧
          dtLe d ((tssOf evs).foldl dtMax d0) = true)) ∧
    process_log_file ctA awsA (fun _ => true) (fun _ => .ok contentC3) "dummy_log.txt" =
      (.ok true, [⟨"0b0b1618-8bd5-5ccc-ad25-c310c6bd7ba3", "2025-04-07T13:38:48Z",
        "2025-04-07T13:39:00Z", some "EGRESS-REGION", some "workspace1", 598⟩]) := by
  constructor
  · intro k e0 evs hk hts
    obtain ⟨d0, hd0⟩ := tsOk_exists (hts e0 (List.mem_cons_self e0 evs))
    obtain ⟨G, hG, hsize, hear, hlat⟩ :=
      foldl_groupStep_spec evs ⟨e0.data_size, some d0, some d0, some e0.workspace, some e0.sku⟩
        d0 d0 (fun e he => tsOk_exists (hts e (List.mem_cons_of_mem _ he))) rfl rfl
    refine ⟨G, d0, hd0, ?_, ?_, hear, hlat, foldl_dtMin_mem _ d0, foldl_dtMax_mem _ d0,
      foldl_dtMin_le_dtMax _ d0, ?_⟩
    · rw [aggregate_single_key k e0 evs hk hd0, hG]
      rfl
    · rw [hsize]
      simp
    · intro e he d hd
      rcases List.mem_cons.mp he with h | h
      · subst h
        rw [hd] at hd0
        injection hd0 with hdd
        subst hdd
        exact ⟨foldl_dtMin_le_init _ d, foldl_dtMax_ge_init _ d⟩
      · have hdm := mem_tssOf h hd
        exact ⟨foldl_dtMin_le_mem _ d0 d hdm, foldl_dtMax_ge_mem _ d0 d hdm⟩
  · decide

/-- Witness for C3: the two scenario records, aggregated under their shared
key. -/
theorem spec_c3_witness :
    ∃ G d0, tsOf evW1 = .ok d0 ∧
      aggregate (evW1 :: [evW2]) = .ok [("dummy_log.txt-workspace1-EGRESS-REGION", G)] ∧
      G.data_size = ((evW1 :: [evW2]).map (fun e => e.data_size)).sum ∧
      G.earliest = some ((tssOf [evW2]).foldl dtMin d0) ∧
      G.latest = some ((tssOf [evW2]).foldl dtMax d0) ∧
      ((tssOf [evW2]).foldl dtMin d0) ∈ (d0 :: tssOf [evW2]) ∧
      ((tssOf [evW2]).foldl dtMax d0) ∈ (d0 :: tssOf [evW2]) ∧
      dtLe ((tssOf [evW2]).foldl dtMin d0) ((tssOf [evW2]).foldl dtMax d0) = true ∧
      (∀ e ∈ evW1 :: [evW2], ∀ d, tsOf e = .ok d →
        dtLe ((tssOf [evW2]).foldl dtMin d0) d = true ∧
        dtLe d ((tssOf [evW2]).foldl dtMax d0) = true) :=
  spec_c3.1 "dummy_log.txt-workspace1-EGRESS-REGION" evW1 [evW2] (by decide) (by decide)

/-! ## Walks over the `process_log_line` body -/

theorem processLogLineBody_some {ct aws : SubnetTreeM} {line f : String} {e : LogEvent}
    (h : processLogLineBody ct aws line f = .ok (some e)) :
    ∃ w sku_enum, workspaceFromHost (xHostHeaderOf (strSplit line "\t")) = some w ∧
      e.workspace = w ∧
      e.uuid = uuid5dns e.aggregation_key ∧
      e.aggregation_key = f ++ "-" ++ w ++ "-" ++ EgressSKU.value sku_enum := by
  unfold processLogLineBody at h
  cases h2 : pyIndex (strSplit line "\t") 2 with
  | error er => simp only [h2] at h; exact Except.noConfusion h
  | ok date =>
  simp only [h2] at h
  cases h3 : pyIndex (strSplit line "\t") 3 with
  | error er => simp only [h3] at h; exact Except.noConfusion h
  | ok time_str =>
  simp only [h3] at h
  cases h5 : pyIndex (strSplit line "\t") 5 with
  | error er => simp only [h5] at h; exact Except.noConfusion h
  | ok sc_str =>
  simp only [h5] at h
  cases hi : pyInt sc_str with
  | error er => simp only [hi] at h; exact Except.noConfusion h
  | ok sc_bytes =>
  simp only [hi] at h
  cases h6 : pyIndex (strSplit line "\t") 6 with
  | error er => simp only [h6] at h; exact Except.noConfusion h
  | ok client_ip =>
  simp only [h6] at h
  cases hw : workspaceFromHost (xHostHeaderOf (strSplit line "\t")) with
  | none => simp only [hw] at h; exact Option.noConfusion (Except.ok.inj h)
  | some w =>
  simp only [hw] at h
  cases hcl : classify ct aws client_ip with
  | error er => simp only [hcl] at h; exact Except.noConfusion h
  | ok sku_enum =>
  simp only [hcl] at h
  obtain rfl := (Option.some.inj (Except.ok.inj h)).symm
  exact ⟨w, sku_enum, rfl, rfl, rfl, rfl⟩

theorem processLogLineBody_ok {ct aws : SubnetTreeM} {line f : String} {r : Option LogEvent}
    (hw : workspaceFromHost (xHostHeaderOf (strSplit line "\t")) = Option.none)
    (h : processLogLineBody ct aws line f = .ok r) : r = Option.none := by
  unfold processLogLineBody at h
  cases h2 : pyIndex (strSplit line "\t") 2 with
  | error er => simp only [h2] at h; exact Except.noConfusion h
  | ok date =>
  simp only [h2] at h
  cases h3 : pyIndex (strSplit line "\t") 3 with
  | error er => simp only [h3] at h; exact Except.noConfusion h
  | ok time_str =>
  simp only [h3] at h
  cases h5 : pyIndex (strSplit line "\t") 5 with
  | error er => simp only [h5] at h; exact Except.noConfusion h
  | ok sc_str =>
  simp only [h5] at h
  cases hi : pyInt sc_str with
  | error er => simp only [hi] at h; exact Except.noConfusion h
  | ok sc_bytes =>
  simp only [hi] at h
  cases h6 : pyIndex (strSplit line "\t") 6 with
  | error er => simp only [h6] at h; exact Except.noConfusion h
  | ok client_ip =>
  simp only [h6, hw] at h
  exact (Except.ok.inj h).symm

theorem processLogLineBody_shortLine {ct aws : SubnetTreeM} {line f : String} {r : Option LogEvent}
    (hlen : (strSplit line "\t").length < 7)
    (h : processLogLineBody ct aws line f = .ok r) : False := by
  unfold processLogLineBody at h
  cases h2 : pyIndex (strSplit line "\t") 2 with
  | error er => simp only [h2] at h; exact Except.noConfusion h
  | ok date =>
  simp only [h2] at h
  cases h3 : pyIndex (strSplit line "\t") 3 with
  | error er => simp only [h3] at h; exact Except.noConfusion h
  | ok time_str =>
  simp only [h3] at h
  cases h5 : pyIndex (strSplit line "\t") 5 with
  | error er => simp only [h5] at h; exact Except.noConfusion h
  | ok sc_str =>
  simp only [h5] at h
  cases hi : pyInt sc_str with
  | error er => simp only [hi] at h; exact Except.noConfusion h
  | ok sc_bytes =>
  simp only [hi] at h
  cases h6 : pyIndex (strSplit line "\t") 6 with
  | error er => simp only [h6] at h; exact Except.noConfusion h
  | ok client_ip =>
  have hget : (strSplit line "\t").get? 6 = Option.none :=
    List.get?_eq_none.mpr (by omega)
  unfold pyIndex at h6
  rw [hget] at h6
  exact Except.noConfusion h6

theorem processLogLineBody_badInt {ct aws : SubnetTreeM} {line f : String} {s : String}
    {r : Option LogEvent}
    (hget : (strSplit line "\t").get? 5 = some s) (hbad : pyIntParse s = Option.none)
    (h : processLogLineBody ct aws line f = .ok r) : False := by
  unfold processLogLineBody at h
  cases h2 : pyIndex (strSplit line "\t") 2 with
  | error er => simp only [h2] at h; exact Except.noConfusion h
  | ok date =>
  simp only [h2] at h
  cases h3 : pyIndex (strSplit line "\t") 3 with
  | error er => simp only [h3] at h; exact Except.noConfusion h
  | ok time_str =>
  simp only [h3] at h
  cases h5 : pyIndex (strSplit line "\t") 5 with
  | error er => simp only [h5] at h; exact Except.noConfusion h
  | ok sc_str =>
  simp only [h5] at h
  have hs : sc_str = s := by
    unfold pyIndex at h5
    rw [hget] at h5
    exact (Except.ok.inj h5).symm
  cases hi : pyInt sc_str with
  | error er => simp only [hi] at h; exact Except.noConfusion h
  | ok sc_bytes =>
  unfold pyInt at hi
  rw [hs, hbad] at hi
  exact Except.noConfusion hi

theorem process_log_line_none_of_body {ct aws : SubnetTreeM} {line f : String}
    (h : ∀ r, processLogLineBody ct aws line f = .ok r → r = Option.none) :
    process_log_line ct aws line f = Option.none := by
  unfold process_log_line
  split
  · rfl
  · cases hb : processLogLineBody ct aws line f with
    | error er => rfl
    | ok r => exact h r hb

theorem process_log_line_some {ct aws : SubnetTreeM} {line f : String} {e : LogEvent}
    (h : process_log_line ct aws line f = some e) :
    ∃ w sku_enum, workspaceFromHost (xHostHeaderOf (strSplit line "\t")) = some w ∧
      e.workspace = w ∧
      e.uuid = uuid5dns e.aggregation_key ∧
      e.aggregation_key = f ++ "-" ++ w ++ "-" ++ EgressSKU.value sku_enum := by
  unfold process_log_line at h
  split at h
  · exact Option.noConfusion h
  · cases hb : processLogLineBody ct aws line f with
    | error er => rw [hb] at h; exact Option.noConfusion h
    | ok r =>
      rw [hb] at h
      cases r with
      | none => exact Option.noConfusion h
      | some e' =>
        obtain rfl := Option.some.inj h
        exact processLogLineBody_some hb

theorem workspaceFromHost_some {h : String} {w : String}
    (hw : workspaceFromHost h = some w) :
    strEndsWith h expected_domain = true ∧ (strSplit h ".").head? = some w ∧ w ≠ "" := by
  unfold workspaceFromHost at hw
  split at hw
  · next hend =>
    split at hw
    · next p rest hp =>
      split at hw
      · next hne =>
        obtain rfl := Option.some.inj hw
        exact ⟨hend, by rw [hp]; rfl, hne⟩
      · exact Option.noConfusion hw
    · exact Option.noConfusion hw
  · exact Option.noConfusion hw

theorem workspaceFromHost_none_of_not_suffix {h : String}
    (hend : strEndsWith h expected_domain = false) : workspaceFromHost h = Option.none := by
  unfold workspaceFromHost
  simp [hend]

/-! ## Claim C4: deterministic name-based identity -/

theorem mkBillingEvent_uuid {gk : String} {g : Group} {ev : BillingEvent}
    (h : mkBillingEvent gk g = .ok ev) : ev.uuid = uuid5dns gk := by
  unfold mkBillingEvent at h
  split at h
  · obtain rfl := (Except.ok.inj h).symm
    rfl
  · exact Except.noConfusion h

theorem emitGroups_cons (send : BillingEvent → Bool) (gk : String) (g : Group)
    (rest : List (String × Group)) (acc : List BillingEvent) :
    emitGroups send ((gk, g) :: rest) acc =
      match mkBillingEvent gk g with
      | .error e => (.error e, acc)
      | .ok ev => if send ev then emitGroups send rest (acc ++ [ev]) else (.ok false, acc) :=
  rfl

theorem emitGroups_cons_error {gk : String} {g : Group} {er : PyErr}
    (send : BillingEvent → Bool) (rest : List (String × Group)) (acc : List BillingEvent)
    (hmk : mkBillingEvent gk g = .error er) :
    emitGroups send ((gk, g) :: rest) acc = (.error er, acc) := by
  rw [emitGroups_cons, hmk]

theorem emitGroups_cons_ok {gk : String} {g : Group} {ev : BillingEvent}
    (send : BillingEvent → Bool) (rest : List (String × Group)) (acc : List BillingEvent)
    (hmk : mkBillingEvent gk g = .ok ev) :
    emitGroups send ((gk, g) :: rest) acc =
      if send ev then emitGroups send rest (acc ++ [ev]) else (.ok false, acc) := by
  rw [emitGroups_cons, hmk]

theorem emit_acc_isPrefix (send : BillingEvent → Bool) :
    ∀ (groups : List (String × Group)) (acc : List BillingEvent),
      List.IsPrefix acc (emitGroups send groups acc).2 := by
  intro groups
  induction groups with
  | nil => intro acc; exact List.prefix_refl acc
  | cons p rest ih =>
    intro acc
    obtain ⟨gk, g⟩ := p
    cases hmk : mkBillingEvent gk g with
    | error er =>
      rw [emitGroups_cons_error send rest acc hmk]
    | ok ev =>
      rw [emitGroups_cons_ok send rest acc hmk]
      cases hs : send ev with
      | true =>
        rw [if_pos rfl]
        exact List.IsPrefix.trans (List.prefix_append acc [ev]) (ih (acc ++ [ev]))
      | false =>
        rw [if_neg Bool.false_ne_true]

theorem emit_send_isPrefix (send : BillingEvent → Bool) :
    ∀ (groups : List (String × Group)) (acc : List BillingEvent),
      List.IsPrefix (emitGroups send groups acc).2 (emitGroups (fun _ => true) groups acc).2 := by
  intro groups
  induction groups with
  | nil => intro acc; exact List.prefix_refl acc
  | cons p rest ih =>
    intro acc
    obtain ⟨gk, g⟩ := p
    cases hmk : mkBillingEvent gk g with
    | error er =>
      rw [emitGroups_cons_error send rest acc hmk,
        emitGroups_cons_error (fun _ => true) rest acc hmk]
    | ok ev =>
      rw [emitGroups_cons_ok send rest acc hmk,
        emitGroups_cons_ok (fun _ => true) rest acc hmk]
      cases hs : send ev with
      | true =>
        rw [if_pos rfl, if_pos rfl]
        exact ih (acc ++ [ev])
      | false =>
        rw [if_neg Bool.false_ne_true, if_pos rfl]
        exact List.IsPrefix.trans (List.prefix_append acc [ev])
          (emit_acc_isPrefix _ rest (acc ++ [ev]))

theorem emit_all_sent_uuids :
    ∀ (groups : List (String × Group)) (acc : List BillingEvent),
      (emitGroups (fun _ => true) groups acc).1 = .ok true →
      (emitGroups (fun _ => true) groups acc).2.map (fun ev => ev.uuid) =
        acc.map (fun ev => ev.uuid) ++ groups.map (fun p => uuid5dns p.1) := by
  intro groups
  induction groups with
  | nil => intro acc _; simp [emitGroups]
  | cons p rest ih =>
    intro acc h
    obtain ⟨gk, g⟩ := p
    cases hmk : mkBillingEvent gk g with
    | error er =>
      rw [emitGroups_cons_error (fun _ => true) rest acc hmk] at h
      exact Except.noConfusion h
    | ok ev =>
      rw [emitGroups_cons_ok (fun _ => true) rest acc hmk, if_pos rfl] at h
      rw [emitGroups_cons_ok (fun _ => true) rest acc hmk, if_pos rfl]
      rw [ih (acc ++ [ev]) h]
      simp [mkBillingEvent_uuid hmk]

/-- C4. The event identifier is the fixed name-based scheme
`uuid5(NAMESPACE_DNS, key)` applied to the composite key: every record
carries `uuid5dns` of its own aggregation key; every emitted group event
carries `uuid5dns` of its group key (so record-level and group-level
identities agree on a shared key); the events any partially-failing
emission delivered are byte-identical to a prefix of what a fully
successful re-run on the same downloaded content delivers; a fully
successful emission delivers exactly `uuid5dns` of each aggregate group key
in order; and the scheme is pinned byte-for-byte by the closed conjunct
(cross-checked against CPython's `uuid.uuid5`). -/
theorem spec_c4 :
    (∀ (ct aws : SubnetTreeM) (line f : String) (e : LogEvent),
      process_log_line ct aws line f = some e → e.uuid = uuid5dns e.aggregation_key) ∧
    (∀ (gk : String) (g : Group) (ev : BillingEvent),
      mkBillingEvent gk g = .ok ev → ev.uuid = uuid5dns gk) ∧
    (∀ (ct aws : SubnetTreeM) (send : BillingEvent → Bool)
        (download : String → Except PyErr String) (key : String),
      List.IsPrefix (process_log_file ct aws send download key).2
        (process_log_file ct aws (fun _ => true) download key).2) ∧
    (∀ groups : List (String × Group),
      (emitGroups (fun _ => true) groups []).1 = .ok true →
      (emitGroups (fun _ => true) groups []).2.map (fun ev => ev.uuid) =
        groups.map (fun p => uuid5dns p.1)) ∧
    uuid5dns "dummy_log.txt-workspace1-EGRESS-REGION" =
      "0b0b1618-8bd5-5ccc-ad25-c310c6bd7ba3" := by
  refine ⟨?_, fun gk g ev h => mkBillingEvent_uuid h, ?_, ?_, by decide⟩
  · intro ct aws line f e h
    obtain ⟨w, sku_enum, _, _, hu, _⟩ := process_log_line_some h
    exact hu
  · intro ct aws send download key
    unfold process_log_file
    cases download key with
    | error er => exact List.prefix_refl []
    | ok content =>
      by_cases hc : content = ""
      · simp only [if_pos hc]
        exact List.prefix_refl []
      · simp only [if_neg hc]
        cases aggregateLines ct aws content key with
        | error er => exact List.prefix_refl []
        | ok agg => exact emit_send_isPrefix send agg []
  · intro groups h
    rw [emit_all_sent_uuids groups [] h]
    rfl

/-- Witness for C4: the first conjunct applied to the scenario line, whose
record's identifier the kernel evaluates to the pinned UUID. -/
theorem spec_c4_witness : evW1.uuid = uuid5dns evW1.aggregation_key :=
  spec_c4.1 ctA awsA lineA1 "dummy_log.txt" evW1 (by decide)

/-! ## Claim C7: workspace extraction from the host header (corrected) -/

/-- C7 counterexample: for the host
`wsx.cluster.eodatahub-workspaces.org.uk` the label immediately preceding
the configured suffix is `cluster`, but the code takes `parts[0]` of the
dot-split, so the produced record's workspace is `wsx` — the claim's
"label immediately preceding that suffix" is false for multi-label hosts. -/
theorem spec_c7_counterexample :
    (process_log_line ctA awsA lineC7 "f.log").map (fun e => e.workspace) = some "wsx" ∧
    ("wsx" : String) ≠ "cluster" := by
  constructor
  · decide
  · decide

/-- C7 amended: the suffix tested is the fixed literal
`eodatahub-workspaces.org.uk` hardcoded in `process_log_line` (it equals
the default of the configured `WORKSPACES_DOMAIN`, which the function does
not consult); every produced record's workspace is the **first**
dot-separated label of the host header (which is nonempty and coincides
with the label immediately preceding the suffix only for single-label
hosts), and a line whose host header does not end with the suffix yields
no record. -/
theorem spec_c7_amended :
    ∀ (ct aws : SubnetTreeM) (line f : String),
      (∀ e, process_log_line ct aws line f = some e →
        strEndsWith (xHostHeaderOf (strSplit line "\t")) expected_domain = true ∧
        (strSplit (xHostHeaderOf (strSplit line "\t")) ".").head? = some e.workspace ∧
        e.workspace ≠ "") ∧
      (strEndsWith (xHostHeaderOf (strSplit line "\t")) expected_domain = false →
        process_log_line ct aws line f = Option.none) := by
  intro ct aws line f
  constructor
  · intro e h
    obtain ⟨w, _, hw, hew, _, _⟩ := process_log_line_some h
    obtain ⟨hend, hhead, hne⟩ := workspaceFromHost_some hw
    exact ⟨hend, hew ▸ hhead, hew ▸ hne⟩
  · intro hend
    exact process_log_line_none_of_body
      (fun r hr => processLogLineBody_ok (workspaceFromHost_none_of_not_suffix hend) hr)

/-- Witness for C7: a line whose host header is `example.com` yields no
record. -/
theorem spec_c7_witness : process_log_line ctA awsA lineBadHost "f.log" = Option.none :=
  (spec_c7_amended ctA awsA lineBadHost "f.log").2 (by decide)

/-! ## Claim C9: `process_log_line` is total on lines -/

/-- C9. `process_log_line` returns a record or `None` for every line and
never propagates an exception: empty or comment-marker lines return `None`
before parsing; a line with fewer than 7 tab-separated fields returns
`None` (the positional reads raise `IndexError` into the caught branch); a
non-numeric byte-count field returns `None` (`ValueError` caught); an
underivable workspace returns `None`; and the closed conjuncts check a
blank and a comment line concretely. -/
theorem spec_c9 :
    ∀ (ct aws : SubnetTreeM) (line f : String),
      ((pyStrip line = "" ∨ strStartsWith line "#" = true) →
        process_log_line ct aws line f = Option.none) ∧
      ((strSplit line "\t").length < 7 → process_log_line ct aws line f = Option.none) ∧
      (∀ s, (strSplit line "\t").get? 5 = some s → pyIntParse s = Option.none →
        process_log_line ct aws line f = Option.none) ∧
      (workspaceFromHost (xHostHeaderOf (strSplit line "\t")) = Option.none →
        process_log_line ct aws line f = Option.none) ∧
      process_log_line ct aws "" f = Option.none ∧
      process_log_line ct aws "# This is a comment" f = Option.none := by
  intro ct aws line f
  have hblank : ∀ line', (pyStrip line' = "" ∨ strStartsWith line' "#" = true) →
      process_log_line ct aws line' f = Option.none := by
    intro line' h
    unfold process_log_line
    rcases h with h | h <;> simp [h]
  refine ⟨hblank line, ?_, ?_, ?_, hblank "" (Or.inl rfl), hblank "# This is a comment"
    (Or.inr (by decide))⟩
  · intro hlen
    exact process_log_line_none_of_body
      (fun r hr => absurd hr (fun hr' => processLogLineBody_shortLine hlen hr'))
  · intro s hget hbad
    exact process_log_line_none_of_body
      (fun r hr => absurd hr (fun hr' => processLogLineBody_badInt hget hbad hr'))
  · intro hw
    exact process_log_line_none_of_body (fun r hr => processLogLineBody_ok hw hr)

/-- Witness for C9: a line with too few fields yields no record. -/
theorem spec_c9_witness : process_log_line ctA awsA "too\tshort" "f.log" = Option.none :=
  (spec_c9 ctA awsA "too\tshort" "f.log").2.1 (by decide)

/-! ## Claim C1: failed file retried on the next run (code bug) -/

/-- C1. The first half of the claim holds: a file one of whose group
emissions fails is not marked processed. But the retry half fails in the
code: `get_start_after_key` returns the lexicographic **maximum** of all
processed keys and feeds it to the S3 listing as `StartAfter`, so once any
later key succeeds, the earlier failed key is below the watermark and is
never listed again. In the two-file scenario: run 1 fails to emit
`log-a`'s only group and succeeds on `log-b`, writing exactly
`{"log-b"}`; run 2 (failure resolved) computes `StartAfter = "log-b"`,
lists no candidates at all, and delivers nothing — `log-a` is never
re-emitted, contradicting the claim (and the code's own
"will be retried later" log message). -/
theorem spec_c1_watermark_skip :
    (run envC1a).written = some [Pval.str "log-b"] ∧
    (run envC1a).outcome = .ok () ∧
    get_start_after_key envC1b.stateContent = "log-b" ∧
    list_log_files envC1b = [] ∧
    (run envC1b).written = some [Pval.str "log-b"] ∧
    (run envC1b).delivered = [] :=
  ⟨rfl, rfl, rfl, rfl, rfl, rfl⟩

/-! ## Claim C6: download failure / empty content handling (corrected) -/

/-- Unfolding of one step of the `for key in new_files` loop. -/
theorem runLoop_cons (current_tree aws_tree : SubnetTreeM) (send : BillingEvent → Bool)
    (download : String → Except PyErr String) (key : String) (rest : List String)
    (processed : List Pval) (delivered : List BillingEvent) :
    runLoop current_tree aws_tree send download (key :: rest) processed delivered =
      match process_log_file current_tree aws_tree send download key with
      | (.error e, evs) => (processed, delivered ++ evs, .error e)
      | (.ok true, evs) =>
        runLoop current_tree aws_tree send download rest (mark_scanned processed key)
          (delivered ++ evs)
      | (.ok false, evs) =>
        runLoop current_tree aws_tree send download rest processed (delivered ++ evs) :=
  rfl

/-- C6 counterexample: in a run whose first candidate's download raises,
the exception propagates out of `process_log_file` (the `download_file`
helper logs and re-raises, and `run` does not catch), so the run aborts:
the remaining candidate `log-b` — which processes fine when downloads work,
as the last conjunct shows — is never processed and nothing is marked. The
claim's "continues to process the remaining candidate keys" is false for
download failures. -/
theorem spec_c6_counterexample :
    (run envC6).outcome = .error .valueError ∧
    (run envC6).written = some [] ∧
    (run envC6).delivered = [] ∧
    (run envC6ok).written = some [Pval.str "log-a", Pval.str "log-b"] :=
  ⟨rfl, rfl, rfl, rfl⟩

/-- C6 amended: only **empty** downloaded content is a per-file skip — the
loop continues with the remaining keys in an identical state and the key is
not marked; a download **exception** is run-fatal — the loop stops at that
key with the error, processing no further candidates (state already
accumulated is still written by `__exit__`, as the run-level closed
conjunct shows: the empty-content first file is skipped, the second file
still processes and is the only key written). -/
theorem spec_c6_amended :
    (∀ (ct aws : SubnetTreeM) (send : BillingEvent → Bool)
        (download : String → Except PyErr String) (key : String) (rest : List String)
        (processed : List Pval) (delivered : List BillingEvent),
      (download key = .ok "" →
        runLoop ct aws send download (key :: rest) processed delivered =
          runLoop ct aws send download rest processed delivered) ∧
      (∀ er, download key = .error er →
        runLoop ct aws send download (key :: rest) processed delivered =
          (processed, delivered, .error er))) ∧
    (run envC6e).written = some [Pval.str "log-b"] ∧
    (run envC6e).outcome = .ok () := by
  refine ⟨?_, rfl, rfl⟩
  intro ct aws send download key rest processed delivered
  have hfile : ∀ h : download key = .ok "",
      process_log_file ct aws send download key = (.ok false, []) := by
    intro h
    unfold process_log_file
    rw [h]
    rfl
  constructor
  · intro h
    rw [runLoop_cons, hfile h]
    show runLoop ct aws send download rest processed (delivered ++ []) = _
    rw [List.append_nil]
  · intro er h
    have hferr : process_log_file ct aws send download key = (.error er, []) := by
      unfold process_log_file
      rw [h]
    rw [runLoop_cons, hferr]
    show (processed, delivered ++ [], Except.error er) = _
    rw [List.append_nil]

/-- Witness for C6: the loop on the empty-content scenario download skips
`log-a` and continues identically with the rest. -/
theorem spec_c6_witness :
    runLoop ctA awsA (fun _ => true) dlC6e ["log-a", "log-b"] [] [] =
      runLoop ctA awsA (fun _ => true) dlC6e ["log-b"] [] [] :=
  (spec_c6_amended.1 ctA awsA (fun _ => true) dlC6e "log-a" ["log-b"] [] []).1 rfl

end Billing
